import Mathlib

/-!
Verification of the retrying Connection orchestrator and the utility helpers
of python-swiftclient (swiftclient/client.py and swiftclient/utils.py), as a
shallow embedding.  The mutable Connection state is threaded explicitly; the
wrapped resource operation and the authenticator are oracle functions giving
the outcome of each invocation; the transport handle is an opaque generation
id; the HTTP transport itself and the hash primitive are collaborators at
the boundary, exactly as the design document scopes them.  Sleeps, operation
start positions, authenticator calls and session snapshots are recorded in
the run state so that orchestrator properties can be stated over them.
-/

namespace Swift

/-- Truthiness of an optional string as Python evaluates it: an absent value
and the empty string are falsy, every other string is truthy. -/
def truthy : Option String → Bool
  | none => false
  | some s => !s.isEmpty

/-- State of a Connection object (swiftclient/client.py, Connection.__init__):
credential fields, retry policy, and the mutable session fields storage url,
token, transport handle and attempt counter.  The transport handle is an
opaque generation id. -/
structure Connection where
  authurl : Option String
  user : Option String
  key : Option String
  retries : Nat
  url : Option String
  token : Option String
  http_conn : Option Nat
  attempts : Nat
  starting_backoff : Nat
  max_backoff : Nat
  retry_on_ratelimit : Bool
deriving DecidableEq

/-- Connection construction (Connection.__init__): the session pair starts as
the preauthurl and preauthtoken arguments, the transport handle starts absent
and the attempt counter at zero. -/
def Connection.init (authurl user key : Option String) (retries : Nat)
    (preauthurl preauthtoken : Option String) (starting_backoff max_backoff : Nat)
    (retry_on_ratelimit : Bool) : Connection :=
  { authurl := authurl, user := user, key := key, retries := retries,
    url := preauthurl, token := preauthtoken, http_conn := none, attempts := 0,
    starting_backoff := starting_backoff, max_backoff := max_backoff,
    retry_on_ratelimit := retry_on_ratelimit }

/-- Outcome of one invocation of the wrapped resource operation, as the
except clauses of Connection._retry distinguish them: a successful return
value, an SSLError from requests (the flag records whether the TLS failure
was a certificate-validation failure; the source never consults this
distinction, since requests raises SSLError for every TLS-layer failure), a
socket.error or other RequestException, or a ClientException carrying an
HTTP status. -/
inductive OpOutcome where
  | success (rv : Nat)
  | sslErr (certValidation : Bool)
  | sockErr
  | clientErr (status : Nat)
deriving DecidableEq

/-- Exception that a top-level call through Connection._retry can propagate:
the re-raised SSLError, a transport error, a ClientException with its HTTP
status, or the ClientException raised by the default reset function of
Connection.put_object (unable to reset contents for reupload). -/
inductive RetryExc where
  | ssl (certValidation : Bool)
  | sock
  | client (status : Nat)
  | resetErr
deriving DecidableEq

/-- Loop-local and instrumentation state of one call through
Connection._retry: the connection, the retried_auth flag and current backoff
of the loop, plus recorders for fresh transport generations, authenticator
invocations, the position of the request body stream, the sleep durations,
the stream position at the start of each operation invocation, and snapshots
of the session pair taken after authentication and after each failure
classification. -/
structure RunState where
  conn : Connection
  retried_auth : Bool
  backoff : Nat
  connGen : Nat
  authCalls : Nat
  pos : Nat
  sleeps : List Nat
  attemptPos : List Nat
  sessLog : List (Option String × Option String)
deriving DecidableEq

/-- Result of a top-level call through Connection._retry: a returned value,
a raised exception, or the implicit None return of falling off the while
loop (unreachable from a fresh call, kept for faithfulness), each together
with the final run state. -/
inductive RetryResult where
  | ok (rv : Nat) (st : RunState)
  | raised (e : RetryExc) (st : RunState)
  | pyNone (st : RunState)
deriving DecidableEq

/-- Final run state carried by a retry result. -/
def RetryResult.state : RetryResult → RunState
  | .ok _ st => st
  | .raised _ st => st
  | .pyNone st => st

/-- Reset capability attached to the request body, as Connection.put_object
selects it: no reset needed (string or empty contents), the default reset
that raises a ClientException, or a rewind of the stream to its original
position via seek. -/
inductive ResetFunc where
  | noReset
  | defaultReset
  | seekTo (origPos : Nat)
deriving DecidableEq

/-- Result of one except-clause classification: retry with the updated state,
or re-raise with the state as mutated up to the raise. -/
inductive HandleResult where
  | retry (st : RunState)
  | fatal (st : RunState)
deriving DecidableEq

/-- State carried by a classification result. -/
def HandleResult.state : HandleResult → RunState
  | .retry st => st
  | .fatal st => st

/-- Result of one execution of the while-loop body of Connection._retry:
either the call finishes (returns or raises) or the loop goes around again. -/
inductive IterResult where
  | done (r : RetryResult)
  | again (st : RunState)
deriving DecidableEq

/-- The attempt-counter increment at the top of the loop body
(self.attempts plus one). -/
def bumpAttempts (st : RunState) : RunState :=
  { st with conn := { st.conn with attempts := st.conn.attempts + 1 } }

/-- The re-authentication step of the loop body: if self.url or self.token is
falsy, obtain a fresh pair from the authenticator and drop the transport
handle, forcing reconnection; otherwise leave the state alone.  The
authenticator is an oracle indexed by how many times it has been consulted
in this call, modelled at its success boundary (it returns a string pair). -/
def authStep (auth : Nat → String × String) (st : RunState) : RunState :=
  if truthy st.conn.url && truthy st.conn.token then st
  else
    { st with
      conn := { st.conn with
        url := some (auth st.authCalls).1,
        token := some (auth st.authCalls).2,
        http_conn := none },
      authCalls := st.authCalls + 1 }

/-- Instrumentation: snapshot the session pair, taken right after the
re-authentication step and again after each failure classification. -/
def logSession (st : RunState) : RunState :=
  { st with sessLog := st.sessLog ++ [(st.conn.url, st.conn.token)] }

/-- The reconnection step of the loop body: if self.http_conn is absent,
create a fresh transport handle bound to the current url (a fresh
generation id). -/
def connStep (st : RunState) : RunState :=
  if st.conn.http_conn.isNone then
    { st with
      conn := { st.conn with http_conn := some (st.connGen + 1) },
      connGen := st.connGen + 1 }
  else st

/-- Instrumentation: record the stream position at which the wrapped
operation is invoked. -/
def recordAttempt (st : RunState) : RunState :=
  { st with attemptPos := st.attemptPos ++ [st.pos] }

/-- The except ClientException clause of Connection._retry: re-raise when
attempts exceeded retries; on 401 clear the session pair, then re-raise if
auth was already retried or any of authurl, user, key is falsy, else mark
auth retried; on 408 drop the transport handle; on 5xx do nothing; on 498 do
nothing when retry_on_ratelimit opts in; re-raise on everything else. -/
def handleClientException (status : Nat) (st : RunState) : HandleResult :=
  if st.conn.retries < st.conn.attempts then .fatal st
  else if status = 401 then
    let st2 := { st with conn := { st.conn with url := none, token := none } }
    if st2.retried_auth ||
        !(truthy st2.conn.authurl && truthy st2.conn.user && truthy st2.conn.key) then
      .fatal st2
    else .retry { st2 with retried_auth := true }
  else if status = 408 then
    .retry { st with conn := { st.conn with http_conn := none } }
  else if 500 ≤ status ∧ status ≤ 599 then .retry st
  else if st.conn.retry_on_ratelimit = true ∧ status = 498 then .retry st
  else .fatal st

/-- The except socket.error or RequestException clause of Connection._retry:
re-raise when attempts exceeded retries, otherwise drop the transport
handle. -/
def handleTransportErr (st : RunState) : HandleResult :=
  if st.conn.retries < st.conn.attempts then .fatal st
  else .retry { st with conn := { st.conn with http_conn := none } }

/-- Tail of the loop body reached after a retryable classification: sleep for
the current backoff (recorded), double the backoff capped at max_backoff,
snapshot the session, then invoke the reset capability: none does nothing,
the default reset raises the reset ClientException, and a seek rewinds the
stream to its original position. -/
def continueAfter (reset : ResetFunc) (st : RunState) : IterResult :=
  let st2 := { st with
    sleeps := st.sleeps ++ [st.backoff],
    backoff := min (st.backoff * 2) st.conn.max_backoff,
    sessLog := st.sessLog ++ [(st.conn.url, st.conn.token)] }
  match reset with
  | .noReset => .again st2
  | .defaultReset => .done (.raised .resetErr st2)
  | .seekTo p => .again { st2 with pos := p }

/-- Dispatch on the outcome of the wrapped operation, exactly as the try
and except clauses of Connection._retry do: a success returns, an SSLError
is re-raised, a transport error and a ClientException go through their
except-clause classifications, retryable classifications continuing through
the backoff-and-reset tail of the loop body. -/
def classify (reset : ResetFunc) (o : OpOutcome) (st : RunState) : IterResult :=
  match o with
  | .success rv => .done (.ok rv st)
  | .sslErr cert => .done (.raised (.ssl cert) st)
  | .sockErr =>
    match handleTransportErr st with
    | .fatal st3 => .done (.raised .sock st3)
    | .retry st3 => continueAfter reset st3
  | .clientErr status =>
    match handleClientException status st with
    | .fatal st3 => .done (.raised (.client status) st3)
    | .retry st3 => continueAfter reset st3

/-- The stream-position effect of invoking the wrapped operation: the
operation reads the body from the current position and leaves the stream at
the position it reports. -/
def opStep (op : Nat → Nat → OpOutcome × Nat) (st : RunState) : RunState :=
  { st with pos := (op st.conn.attempts st.pos).2 }

/-- One execution of the while-loop body of Connection._retry: bump the
attempt counter, re-authenticate if the session is falsy, reconnect if the
transport handle is absent, invoke the wrapped operation (an oracle of the
attempt number and current stream position, returning the outcome and the
stream position it leaves behind), then dispatch on the outcome.  The
response_dict merging of the source is pure out-parameter plumbing and is
not modelled (no claim concerns it). -/
def retryIter (auth : Nat → String × String) (op : Nat → Nat → OpOutcome × Nat)
    (reset : ResetFunc) (st : RunState) : IterResult :=
  let st1 := recordAttempt (connStep (logSession (authStep auth (bumpAttempts st))))
  classify reset (op st1.conn.attempts st1.pos).1 (opStep op st1)

/-- The while loop of Connection._retry, fuel-indexed: while attempts do not
exceed retries run the body; falling out of the loop is the implicit None
return.  Fuel exhaustion yields none; a fuel of retries plus one always
suffices (each body run increments attempts and the guard bounds them). -/
def retryGo (auth : Nat → String × String) (op : Nat → Nat → OpOutcome × Nat)
    (reset : ResetFunc) : Nat → RunState → Option RetryResult
  | 0, _ => none
  | fuel+1, st =>
    if st.conn.attempts ≤ st.conn.retries then
      match retryIter auth op reset st with
      | .done r => some r
      | .again st2 => retryGo auth op reset fuel st2
    else some (.pyNone st)

/-- Run state at the top of Connection._retry: the attempt counter is reset
to zero, retried_auth is false, the backoff starts at starting_backoff, and
the instrumentation lists start empty.  Fresh transport generations start
above any existing handle id. -/
def initialRunState (c : Connection) (pos0 : Nat) : RunState :=
  { conn := { c with attempts := 0 }, retried_auth := false,
    backoff := c.starting_backoff, connGen := c.http_conn.getD 0,
    authCalls := 0, pos := pos0, sleeps := [], attemptPos := [], sessLog := [] }

/-- A top-level call through Connection._retry. -/
def Connection_retry (auth : Nat → String × String)
    (op : Nat → Nat → OpOutcome × Nat) (reset : ResetFunc)
    (c : Connection) (pos0 : Nat) : Option RetryResult :=
  retryGo auth op reset (c.retries + 1) (initialRunState c pos0)

/-- The duck-typed contents argument of Connection.put_object: a string,
an empty or absent value, or a file-like stream with given tell and seek
capabilities and current position. -/
inductive Contents where
  | str (s : String)
  | noContents
  | stream (hasTell hasSeek : Bool) (pos : Nat)
deriving DecidableEq

/-- Reset-capability selection of Connection.put_object: strings and empty
contents need no reset; otherwise the default reset (which raises) is used,
upgraded to a seek back to the position read by tell when retries are
positive and the stream has both tell and seek. -/
def put_object_reset_func (retries : Nat) (contents : Contents) : ResetFunc :=
  match contents with
  | .str _ => .noReset
  | .noContents => .noReset
  | .stream hasTell hasSeek pos =>
    if 0 < retries ∧ hasTell = true ∧ hasSeek = true then .seekTo pos
    else .defaultReset

/-- Initial stream position of the contents argument. -/
def Contents.position : Contents → Nat
  | .stream _ _ p => p
  | _ => 0

/-- Connection.put_object: select the reset capability from the contents
argument, then run the wrapped put through Connection._retry. -/
def Connection_put_object (auth : Nat → String × String)
    (op : Nat → Nat → OpOutcome × Nat) (c : Connection) (contents : Contents) :
    Option RetryResult :=
  Connection_retry auth op (put_object_reset_func c.retries contents) c
    contents.position

/-- Statuses whose classification in Connection._retry falls through to a
further attempt (with attempts remaining): request timeout, server errors,
and rate limiting when the policy opts in. -/
def retryableStatus (retry_on_ratelimit : Bool) (s : Nat) : Prop :=
  s = 408 ∨ (500 ≤ s ∧ s ≤ 599) ∨ (retry_on_ratelimit = true ∧ s = 498)

/-- The authenticator oracle returns truthy url and token strings (real
storage urls and tokens are never empty). -/
def authOk (auth : Nat → String × String) : Prop :=
  ∀ n, (auth n).1 ≠ "" ∧ (auth n).2 ≠ ""

/-- Invariant of the retry loop governing authentication counting: before
retried_auth is set, the call has not authenticated and the session pair is
truthy; the call never authenticates more than once; and a falsy session
can only be present before any authentication of this call. -/
def authInv (st : RunState) : Prop :=
  (st.retried_auth = false →
    st.authCalls = 0 ∧ truthy st.conn.url = true ∧ truthy st.conn.token = true)
  ∧ st.authCalls ≤ 1
  ∧ ((truthy st.conn.url && truthy st.conn.token) = false → st.authCalls = 0)

/-- Invariant of the retry loop governing backoff: the maximum backoff is
fixed, the pending backoff is the initial backoff doubled once per recorded
sleep and capped at the maximum, and each recorded sleep follows the same
law at its own index. -/
def sleepsSpec (s0 M : Nat) (st : RunState) : Prop :=
  st.conn.max_backoff = M
  ∧ st.backoff = min (s0 * 2 ^ st.sleeps.length) M
  ∧ ∀ i : Nat, (h : i < st.sleeps.length) → st.sleeps[i] = min (s0 * 2 ^ i) M

/-- Invariant of the retry loop for a rewinding reset capability: the stream
sits at the original position and every recorded operation start was at the
original position. -/
def posInv (q : Nat) (st : RunState) : Prop :=
  st.pos = q ∧ ∀ x ∈ st.attemptPos, x = q

/-- A session snapshot with url and token equi-present: both present or
both absent. -/
def pairPresent (p : Option String × Option String) : Prop :=
  p.1.isSome = p.2.isSome

/-- Invariant of the retry loop for session equi-presence: the current pair
and every logged snapshot are equi-present. -/
def sessInv (st : RunState) : Prop :=
  st.conn.url.isSome = st.conn.token.isSome ∧ ∀ p ∈ st.sessLog, pairPresent p

/-- Projection: the exception of a raised retry result. -/
def raisedExc : Option RetryResult → Option RetryExc
  | some (.raised e _) => some e
  | _ => none

/-- Projection: the final session pair of a retry result. -/
def resultSession (o : Option RetryResult) : Option (Option String × Option String) :=
  o.map fun r => (r.state.conn.url, r.state.conn.token)

/-- Projection: the final transport handle of a retry result. -/
def resultHandle (o : Option RetryResult) : Option (Option Nat) :=
  o.map fun r => r.state.conn.http_conn

/-- Projection: the recorded sleep durations of a retry result. -/
def resultSleeps (o : Option RetryResult) : Option (List Nat) :=
  o.map fun r => r.state.sleeps

/-! Listings: the full_listing pagination mode of get_container and
get_account.  The single-page GET (query building, status check, JSON
parsing) is the transport boundary, modelled as a server oracle from the
marker to the page (response headers and parsed entries). -/

/-- Lower-cased response headers of one page, as the single-page call
returns them. -/
abbrev Headers := List (String × String)

/-- One listing entry, keeping only the fields the pagination loop reads:
the name, and the subdir key that delimiter listings may carry instead.
An absent field models an absent dictionary key. -/
structure Entry where
  name : Option String
  subdir : Option String
deriving DecidableEq

/-- Marker extraction of the get_container full-listing loop: with a truthy
delimiter, the name if the key is present else the subdir value; without a
delimiter, the name, where an absent name key is the KeyError of
listing[-1] indexed by name. -/
def containerMarker (delimiter : Option String) (e : Entry) :
    Except Unit (Option String) :=
  if truthy delimiter then
    .ok (match e.name with
      | some n => some n
      | none => e.subdir)
  else
    match e.name with
    | some n => .ok (some n)
    | none => .error ()

/-- Marker extraction of the get_account full-listing loop: always the name,
an absent name key being a KeyError. -/
def accountMarker (e : Entry) : Except Unit (Option String) :=
  match e.name with
  | some n => .ok (some n)
  | none => .error ()

/-- Failure of a full-listing call: the KeyError of a missing name key, or
exhaustion of the fuel bounding the page loop (a server that never returns
an empty page makes the source loop forever). -/
inductive PageErr where
  | keyError
  | fuelOut
deriving DecidableEq

/-- The while loop shared by the full_listing branches of get_container and
get_account: while the last page is nonempty, extract the next marker from
its last entry, fetch the next page, and extend the accumulated listing
with it when it is nonempty. -/
def listingLoop (server : Option String → Headers × List Entry)
    (markerOf : Entry → Except Unit (Option String)) :
    Nat → List Entry → List Entry → Except PageErr (List Entry)
  | 0, _, _ => .error .fuelOut
  | fuel+1, acc, listing =>
    match listing.getLast? with
    | none => .ok acc
    | some e =>
      match markerOf e with
      | .error _ => .error .keyError
      | .ok m =>
        let next := (server m).2
        listingLoop server markerOf fuel
          (if next.isEmpty then acc else acc ++ next) next

/-- The full_listing branch of get_container: issue the first page request
with the caller marker, then loop; the returned headers are those of the
first response. -/
def get_container_full (server : Option String → Headers × List Entry)
    (delimiter : Option String) (marker : Option String) (fuel : Nat) :
    Except PageErr (Headers × List Entry) :=
  let rv := server marker
  (listingLoop server (containerMarker delimiter) fuel rv.2 rv.2).map
    fun es => (rv.1, es)

/-- The full_listing branch of get_account, identical except that markers
always come from the name field. -/
def get_account_full (server : Option String → Headers × List Entry)
    (marker : Option String) (fuel : Nat) :
    Except PageErr (Headers × List Entry) :=
  let rv := server marker
  (listingLoop server accountMarker fuel rv.2 rv.2).map
    fun es => (rv.1, es)

/-! Authentication dispatch: get_auth of swiftclient/client.py.  The two
protocol backends, get_auth_1_0 and the keystone client, are collaborators
modelled at their success boundary as the pair they produce; what matters
to the claims is whether a backend is consulted at all. -/

/-- The os_options configuration keys that get_auth reads; an absent field
models an absent dictionary key. -/
structure OsOptions where
  object_storage_url : Option String
  auth_token : Option String
  tenant_name : Option String
deriving DecidableEq

/-- Failures get_auth raises itself: an unknown auth_version, a missing
tenant for version 2, and the unpacking error of splitting a user with more
than one colon into exactly two parts. -/
inductive AuthFailure where
  | unknownVersion
  | noTenant
  | unpackError
deriving DecidableEq

/-- Result of get_auth, instrumented with whether an authentication request
was issued to a backend. -/
structure AuthResult where
  url : String
  token : String
  backendCalled : Bool
deriving DecidableEq

/-- The storage-url override at the end of get_auth: a truthy
object_storage_url in os_options replaces the url the backend returned; the
token is kept. -/
def applyOverride (os : OsOptions) (storage_url token : String) (called : Bool) :
    Except AuthFailure AuthResult :=
  if truthy os.object_storage_url then
    .ok { url := os.object_storage_url.getD "", token := token,
          backendCalled := called }
  else
    .ok { url := storage_url, token := token, backendCalled := called }

/-- get_auth: version 1 always consults the version-1 backend and then
applies the override; version 2 first short-circuits on a cached
object_storage_url and auth_token pair in os_options, otherwise derives a
tenant name (possibly splitting a colon-joined user), requires one, consults
the keystone backend and applies the override; other versions fail. -/
def get_auth (auth_version user : String) (tenant_name : Option String)
    (os_options : OsOptions) (backend_v1 : String × String)
    (backend_v2 : OsOptions → String → String × String) :
    Except AuthFailure AuthResult :=
  if auth_version = "1.0" ∨ auth_version = "1" then
    applyOverride os_options backend_v1.1 backend_v1.2 true
  else if auth_version = "2.0" ∨ auth_version = "2" then
    if truthy os_options.object_storage_url && truthy os_options.auth_token then
      .ok { url := os_options.object_storage_url.getD "",
            token := os_options.auth_token.getD "", backendCalled := false }
    else
      let split : Except AuthFailure (OsOptions × String) :=
        if !(truthy tenant_name) && user.contains ':' then
          match user.splitOn ":" with
          | [tn, u2] => .ok ({ os_options with tenant_name := some tn }, u2)
          | _ => .error .unpackError
        else .ok (os_options, user)
      match split with
      | .error e => .error e
      | .ok (os1, user1) =>
        let os2 :=
          if truthy tenant_name then { os1 with tenant_name := tenant_name }
          else os1
        if os2.tenant_name.isNone then .error .noTenant
        else
          let bt := backend_v2 os2 user1
          applyOverride os2 bt.1 bt.2 true
  else .error .unknownVersion

/-- Projection: whether a successful get_auth issued a backend request. -/
def authBackendCalled : Except AuthFailure AuthResult → Option Bool
  | .ok r => some r.backendCalled
  | .error _ => none

/-! Temporary url signing: generate_temp_url of swiftclient/utils.py.  The
keyed hash is the hmac and hashlib collaborator, abstracted as an oracle
from key and message to the hex digest. -/

/-- Failure of generate_temp_url on negative seconds. -/
inductive TempUrlErr where
  | valueError
deriving DecidableEq

/-- generate_temp_url: reject negative seconds before computing anything;
compute the expiration as now plus seconds (or seconds alone in absolute
mode); join method upper-cased, expiration and path with newlines; sign with
the keyed hash; and return the path with the signature and expiration query
parameters.  The clock is a fixed integer parameter. -/
def generate_temp_url (hmacSha1Hex : String → String → String) (path : String)
    (seconds : Int) (key : String) (method : String) (absolute : Bool)
    (now : Int) : Except TempUrlErr String :=
  if seconds < 0 then .error .valueError
  else
    let expiration : Int := if absolute then seconds else now + seconds
    let hmac_body :=
      method.toUpper ++ "\n" ++ toString expiration ++ "\n" ++ path
    let sig := hmacSha1Hex key hmac_body
    .ok (path ++ "?temp_url_sig=" ++ sig ++ "&temp_url_expires="
      ++ toString expiration)

/-! Concrete configurations used by counterexamples and witnesses. -/

/-- A connection with full credentials, a live session and handle, and five
retries. -/
def liveConn : Connection :=
  { authurl := some "http://auth.test", user := some "u", key := some "k",
    retries := 5, url := some "http://storage.test/v1/a",
    token := some "tok0", http_conn := some 3, attempts := 0,
    starting_backoff := 1, max_backoff := 64, retry_on_ratelimit := false }

/-- The live connection with no retries allowed. -/
def zeroRetryConn : Connection :=
  { liveConn with retries := 0 }

/-- The live connection with an uncapped-looking backoff configuration:
starting backoff above the maximum backoff, one retry. -/
def oddBackoffConn : Connection :=
  { liveConn with starting_backoff := 10, max_backoff := 1, retries := 1 }

/-- An authenticator oracle returning a fixed fresh pair. -/
def constAuth : Nat → String × String := fun _ => ("http://fresh.test", "tokF")

/-- An operation oracle that always fails with the given status. -/
def alwaysStatus (s : Nat) : Nat → Nat → OpOutcome × Nat :=
  fun _ p => (.clientErr s, p)

/-- An operation oracle that always fails with a TLS error that is not a
certificate-validation failure. -/
def alwaysTlsHandshakeErr : Nat → Nat → OpOutcome × Nat :=
  fun _ p => (.sslErr false, p)

/-- An operation oracle failing with a 503 on the first attempt and
succeeding with value 7 afterwards. -/
def failThenOk : Nat → Nat → OpOutcome × Nat :=
  fun i p => if i < 2 then (.clientErr 503, p) else (.success 7, p)

/-- An operation oracle failing with a transport error on the first attempt
and succeeding with value 9 afterwards. -/
def sockThenOk : Nat → Nat → OpOutcome × Nat :=
  fun i p => if i < 2 then (.sockErr, p) else (.success 9, p)

/-- An operation oracle failing with a 401 on every attempt. -/
def fourOhOne : Nat → Nat → OpOutcome × Nat := alwaysStatus 401

/-- A concrete four-page listing server with pages of sizes two, two, one
and zero, keyed by the markers the full-listing loop should present. -/
def pageServer : Option String → Headers × List Entry := fun m =>
  match m with
  | none => ([("x-hdr", "first")], [⟨some "a", none⟩, ⟨some "b", none⟩])
  | some "b" => ([("x-hdr", "second")], [⟨some "c", none⟩, ⟨some "d", none⟩])
  | some "d" => ([("x-hdr", "third")], [⟨some "e", none⟩])
  | _ => ([("x-hdr", "fourth")], [])

/-- A concrete four-page listing server for delimiter listings, whose page
boundaries fall on entries that carry a subdir key instead of a name. -/
def subdirServer : Option String → Headers × List Entry := fun m =>
  match m with
  | none => ([("h", "one")], [⟨some "a", none⟩, ⟨none, some "p/"⟩])
  | some "p/" => ([("h", "two")], [⟨some "c", none⟩, ⟨some "d", none⟩])
  | some "d" => ([("h", "three")], [⟨none, some "q/"⟩])
  | _ => ([("h", "four")], [])

/-! Helper lemmas: truthiness, fields preserved by the loop primitives, and
case characterizations of the except-clause classifications. -/

lemma truthy_some_ne {x : String} (h : x ≠ "") : truthy (some x) = true := by
  have he : x.isEmpty = false := by
    rw [Bool.eq_false_iff]
    intro hx
    exact h ((String.isEmpty_iff x).mp hx)
  simp [truthy, he]

lemma authStep_attempts (auth : Nat → String × String) (st : RunState) :
    (authStep auth st).conn.attempts = st.conn.attempts := by
  unfold authStep; split <;> rfl

lemma authStep_retries (auth : Nat → String × String) (st : RunState) :
    (authStep auth st).conn.retries = st.conn.retries := by
  unfold authStep; split <;> rfl

lemma authStep_max_backoff (auth : Nat → String × String) (st : RunState) :
    (authStep auth st).conn.max_backoff = st.conn.max_backoff := by
  unfold authStep; split <;> rfl

lemma authStep_ratelimit (auth : Nat → String × String) (st : RunState) :
    (authStep auth st).conn.retry_on_ratelimit = st.conn.retry_on_ratelimit := by
  unfold authStep; split <;> rfl

lemma authStep_retried (auth : Nat → String × String) (st : RunState) :
    (authStep auth st).retried_auth = st.retried_auth := by
  unfold authStep; split <;> rfl

lemma authStep_backoff (auth : Nat → String × String) (st : RunState) :
    (authStep auth st).backoff = st.backoff := by
  unfold authStep; split <;> rfl

lemma authStep_pos (auth : Nat → String × String) (st : RunState) :
    (authStep auth st).pos = st.pos := by
  unfold authStep; split <;> rfl

lemma authStep_sleeps (auth : Nat → String × String) (st : RunState) :
    (authStep auth st).sleeps = st.sleeps := by
  unfold authStep; split <;> rfl

lemma authStep_attemptPos (auth : Nat → String × String) (st : RunState) :
    (authStep auth st).attemptPos = st.attemptPos := by
  unfold authStep; split <;> rfl

lemma authStep_sessLog (auth : Nat → String × String) (st : RunState) :
    (authStep auth st).sessLog = st.sessLog := by
  unfold authStep; split <;> rfl

lemma connStep_url (st : RunState) : (connStep st).conn.url = st.conn.url := by
  unfold connStep; split <;> rfl

lemma connStep_token (st : RunState) : (connStep st).conn.token = st.conn.token := by
  unfold connStep; split <;> rfl

lemma connStep_attempts (st : RunState) :
    (connStep st).conn.attempts = st.conn.attempts := by
  unfold connStep; split <;> rfl

lemma connStep_retries (st : RunState) :
    (connStep st).conn.retries = st.conn.retries := by
  unfold connStep; split <;> rfl

lemma connStep_max_backoff (st : RunState) :
    (connStep st).conn.max_backoff = st.conn.max_backoff := by
  unfold connStep; split <;> rfl

lemma connStep_ratelimit (st : RunState) :
    (connStep st).conn.retry_on_ratelimit = st.conn.retry_on_ratelimit := by
  unfold connStep; split <;> rfl

lemma connStep_retried (st : RunState) :
    (connStep st).retried_auth = st.retried_auth := by
  unfold connStep; split <;> rfl

lemma connStep_backoff (st : RunState) : (connStep st).backoff = st.backoff := by
  unfold connStep; split <;> rfl

lemma connStep_authCalls (st : RunState) :
    (connStep st).authCalls = st.authCalls := by
  unfold connStep; split <;> rfl

lemma connStep_pos (st : RunState) : (connStep st).pos = st.pos := by
  unfold connStep; split <;> rfl

lemma connStep_sleeps (st : RunState) : (connStep st).sleeps = st.sleeps := by
  unfold connStep; split <;> rfl

lemma connStep_attemptPos (st : RunState) :
    (connStep st).attemptPos = st.attemptPos := by
  unfold connStep; split <;> rfl

lemma connStep_sessLog (st : RunState) :
    (connStep st).sessLog = st.sessLog := by
  unfold connStep; split <;> rfl

lemma stR_attempts (auth : Nat → String × String) (st : RunState) :
    (recordAttempt (connStep (logSession (authStep auth (bumpAttempts st))))).conn.attempts
      = st.conn.attempts + 1 := by
  show (connStep (logSession (authStep auth (bumpAttempts st)))).conn.attempts = _
  rw [connStep_attempts]
  show (authStep auth (bumpAttempts st)).conn.attempts = _
  rw [authStep_attempts]
  rfl

lemma stR_retries (auth : Nat → String × String) (st : RunState) :
    (recordAttempt (connStep (logSession (authStep auth (bumpAttempts st))))).conn.retries
      = st.conn.retries := by
  show (connStep (logSession (authStep auth (bumpAttempts st)))).conn.retries = _
  rw [connStep_retries]
  show (authStep auth (bumpAttempts st)).conn.retries = _
  rw [authStep_retries]
  rfl

lemma stR_max_backoff (auth : Nat → String × String) (st : RunState) :
    (recordAttempt (connStep (logSession (authStep auth (bumpAttempts st))))).conn.max_backoff
      = st.conn.max_backoff := by
  show (connStep (logSession (authStep auth (bumpAttempts st)))).conn.max_backoff = _
  rw [connStep_max_backoff]
  show (authStep auth (bumpAttempts st)).conn.max_backoff = _
  rw [authStep_max_backoff]
  rfl

lemma stR_ratelimit (auth : Nat → String × String) (st : RunState) :
    (recordAttempt (connStep (logSession (authStep auth (bumpAttempts st))))).conn.retry_on_ratelimit
      = st.conn.retry_on_ratelimit := by
  show (connStep (logSession (authStep auth (bumpAttempts st)))).conn.retry_on_ratelimit = _
  rw [connStep_ratelimit]
  show (authStep auth (bumpAttempts st)).conn.retry_on_ratelimit = _
  rw [authStep_ratelimit]
  rfl

lemma stR_backoff (auth : Nat → String × String) (st : RunState) :
    (recordAttempt (connStep (logSession (authStep auth (bumpAttempts st))))).backoff
      = st.backoff := by
  show (connStep (logSession (authStep auth (bumpAttempts st)))).backoff = _
  rw [connStep_backoff]
  show (authStep auth (bumpAttempts st)).backoff = _
  rw [authStep_backoff]
  rfl

lemma stR_sleeps (auth : Nat → String × String) (st : RunState) :
    (recordAttempt (connStep (logSession (authStep auth (bumpAttempts st))))).sleeps
      = st.sleeps := by
  show (connStep (logSession (authStep auth (bumpAttempts st)))).sleeps = _
  rw [connStep_sleeps]
  show (authStep auth (bumpAttempts st)).sleeps = _
  rw [authStep_sleeps]
  rfl

lemma stR_pos (auth : Nat → String × String) (st : RunState) :
    (recordAttempt (connStep (logSession (authStep auth (bumpAttempts st))))).pos
      = st.pos := by
  show (connStep (logSession (authStep auth (bumpAttempts st)))).pos = _
  rw [connStep_pos]
  show (authStep auth (bumpAttempts st)).pos = _
  rw [authStep_pos]
  rfl

lemma stR_attemptPos (auth : Nat → String × String) (st : RunState) :
    (recordAttempt (connStep (logSession (authStep auth (bumpAttempts st))))).attemptPos
      = st.attemptPos ++ [st.pos] := by
  show (connStep (logSession (authStep auth (bumpAttempts st)))).attemptPos
    ++ [(connStep (logSession (authStep auth (bumpAttempts st)))).pos] = _
  rw [connStep_attemptPos, connStep_pos]
  show (authStep auth (bumpAttempts st)).attemptPos
    ++ [(authStep auth (bumpAttempts st)).pos] = _
  rw [authStep_attemptPos, authStep_pos]
  rfl

lemma handleTransportErr_cases (st : RunState) :
    (handleTransportErr st = .fatal st ∧ st.conn.retries < st.conn.attempts) ∨
    (handleTransportErr st =
      .retry { st with conn := { st.conn with http_conn := none } } ∧
      st.conn.attempts ≤ st.conn.retries) := by
  unfold handleTransportErr
  split
  · rename_i hgt
    exact .inl ⟨rfl, hgt⟩
  · rename_i hle
    exact .inr ⟨rfl, by omega⟩

lemma handleClientException_cases (s : Nat) (st : RunState) :
    handleClientException s st = .fatal st ∨
    (s = 401 ∧ handleClientException s st =
      .fatal { st with conn := { st.conn with url := none, token := none } }) ∨
    (s = 401 ∧ st.retried_auth = false ∧ handleClientException s st =
      .retry { st with
        conn := { st.conn with url := none, token := none },
        retried_auth := true }) ∨
    (s = 408 ∧ handleClientException s st =
      .retry { st with conn := { st.conn with http_conn := none } }) ∨
    ((500 ≤ s ∧ s ≤ 599) ∨ (st.conn.retry_on_ratelimit = true ∧ s = 498)) ∧
      handleClientException s st = .retry st := by
  simp only [handleClientException]
  split
  · exact .inl rfl
  · split
    · rename_i h401
      split
      · exact .inr (.inl ⟨h401, rfl⟩)
      · rename_i hcond
        refine .inr (.inr (.inl ⟨h401, ?_, rfl⟩))
        simp only [Bool.or_eq_true, not_or, Bool.not_eq_true] at hcond
        exact hcond.1
    · split
      · rename_i h408
        exact .inr (.inr (.inr (.inl ⟨h408, rfl⟩)))
      · split
        · rename_i h5xx
          exact .inr (.inr (.inr (.inr ⟨.inl h5xx, rfl⟩)))
        · split
          · rename_i h498
            exact .inr (.inr (.inr (.inr ⟨.inr h498, rfl⟩)))
          · exact .inl rfl

lemma handleClientException_retryable (s : Nat) (st : RunState)
    (hle : st.conn.attempts ≤ st.conn.retries)
    (hs : retryableStatus st.conn.retry_on_ratelimit s) :
    ∃ st2, handleClientException s st = .retry st2 ∧
      st2.attemptPos = st.attemptPos ∧ st2.backoff = st.backoff ∧
      st2.sleeps = st.sleeps ∧ st2.conn.max_backoff = st.conn.max_backoff := by
  rcases hs with h408 | h5 | h498
  · subst h408
    unfold handleClientException
    rw [if_neg (show ¬ st.conn.retries < st.conn.attempts by omega),
      if_neg (show ¬ (408 : Nat) = 401 by omega),
      if_pos (show (408 : Nat) = 408 from rfl)]
    exact ⟨_, rfl, rfl, rfl, rfl, rfl⟩
  · unfold handleClientException
    rw [if_neg (show ¬ st.conn.retries < st.conn.attempts by omega),
      if_neg (show ¬ s = 401 by omega), if_neg (show ¬ s = 408 by omega),
      if_pos h5]
    exact ⟨_, rfl, rfl, rfl, rfl, rfl⟩
  · obtain ⟨hrl, h498⟩ := h498
    subst h498
    unfold handleClientException
    rw [if_neg (show ¬ st.conn.retries < st.conn.attempts by omega),
      if_neg (show ¬ (498 : Nat) = 401 by omega),
      if_neg (show ¬ (498 : Nat) = 408 by omega),
      if_neg (show ¬ (500 ≤ (498 : Nat) ∧ (498 : Nat) ≤ 599) by omega),
      if_pos (show st.conn.retry_on_ratelimit = true ∧ (498 : Nat) = 498
        from ⟨hrl, rfl⟩)]
    exact ⟨_, rfl, rfl, rfl, rfl, rfl⟩

theorem retryGo_inv (auth : Nat → String × String) (op : Nat → Nat → OpOutcome × Nat)
    (reset : ResetFunc) (P : RunState → Prop) (Q : RetryResult → Prop)
    (hAgain : ∀ st st2, P st → retryIter auth op reset st = .again st2 → P st2)
    (hDone : ∀ st r, P st → retryIter auth op reset st = .done r → Q r)
    (hPy : ∀ st, P st → Q (.pyNone st)) :
    ∀ fuel st, P st → ∀ r, retryGo auth op reset fuel st = some r → Q r := by
  intro fuel
  induction fuel with
  | zero => intro st hP r hr; simp [retryGo] at hr
  | succ n ih =>
    intro st hP r hr
    simp only [retryGo] at hr
    by_cases hle : st.conn.attempts ≤ st.conn.retries
    · rw [if_pos hle] at hr
      cases hi : retryIter auth op reset st with
      | done r0 =>
        rw [hi] at hr
        simp only [Option.some.injEq] at hr
        exact hr ▸ hDone st r0 hP hi
      | again st2 =>
        rw [hi] at hr
        exact ih st2 (hAgain st st2 hP hi) r hr
    · rw [if_neg hle] at hr
      simp only [Option.some.injEq] at hr
      exact hr ▸ hPy st hP

/-! Claim C1: idempotent retry convergence on 5xx failures. -/

lemma retry_5xx_aux (auth : Nat → String × String) (op : Nat → Nat → OpOutcome × Nat)
    (reset : ResetFunc) (hreset : reset ≠ .defaultReset) (N rv : Nat)
    (hop5 : ∀ i p, 1 ≤ i → i < N → ∃ s, (op i p).1 = .clientErr s ∧ 500 ≤ s ∧ s ≤ 599)
    (hopN : ∀ p, (op N p).1 = .success rv) :
    ∀ fuel st, N ≤ st.conn.attempts + fuel → st.conn.attempts < N →
      N ≤ st.conn.retries + 1 →
      truthy st.conn.url = true → truthy st.conn.token = true →
      st.conn.http_conn.isSome = true →
      ∃ st2, retryGo auth op reset fuel st = some (.ok rv st2) ∧
        st2.conn.url = st.conn.url ∧ st2.conn.token = st.conn.token ∧
        st2.conn.http_conn = st.conn.http_conn ∧ st2.authCalls = st.authCalls := by
  intro fuel
  induction fuel with
  | zero => intro st hNf hlt _ _ _ _; omega
  | succ n ih =>
    intro st hNf hlt hNR hu ht hc
    have hle : st.conn.attempts ≤ st.conn.retries := by omega
    obtain ⟨v, hv⟩ := Option.isSome_iff_exists.mp hc
    rcases ho : op (st.conn.attempts + 1) st.pos with ⟨o1, p2⟩
    by_cases hNA : st.conn.attempts + 1 = N
    · have h2 := hopN st.pos
      rw [← hNA] at h2
      rw [ho] at h2
      simp only at h2
      subst h2
      have hiter : retryIter auth op reset st =
          .done (.ok rv
            { st with
              conn := { st.conn with attempts := st.conn.attempts + 1 },
              sessLog := st.sessLog ++ [(st.conn.url, st.conn.token)],
              attemptPos := st.attemptPos ++ [st.pos],
              pos := p2 }) := by
        simp [retryIter, opStep, classify, bumpAttempts, authStep, logSession,
          connStep, recordAttempt, hu, ht, hv, ho]
      refine ⟨{ st with
          conn := { st.conn with attempts := st.conn.attempts + 1 },
          sessLog := st.sessLog ++ [(st.conn.url, st.conn.token)],
          attemptPos := st.attemptPos ++ [st.pos],
          pos := p2 }, ?_, rfl, rfl, rfl, rfl⟩
      simp only [retryGo, if_pos hle, hiter]
    · have hlt2 : st.conn.attempts + 1 < N := by omega
      obtain ⟨s, hcs, hs1, hs2⟩ := hop5 (st.conn.attempts + 1) st.pos (by omega) hlt2
      rw [ho] at hcs
      simp only at hcs
      subst hcs
      have hiter : retryIter auth op reset st =
          continueAfter reset
            { st with
              conn := { st.conn with attempts := st.conn.attempts + 1 },
              sessLog := st.sessLog ++ [(st.conn.url, st.conn.token)],
              attemptPos := st.attemptPos ++ [st.pos],
              pos := p2 } := by
        simp [retryIter, opStep, classify, bumpAttempts, authStep, logSession,
          connStep, recordAttempt, hu, ht, hv, ho, handleClientException,
          show ¬ st.conn.retries < st.conn.attempts + 1 by omega,
          show ¬ s = 401 by omega, show ¬ s = 408 by omega, hs1, hs2]
      simp only [retryGo, if_pos hle, hiter]
      rcases reset with _ | _ | p
      · simp only [continueAfter]
        obtain ⟨st2, hgo, e1, e2, e3, e4⟩ := ih
          { st with
            conn := { st.conn with attempts := st.conn.attempts + 1 },
            sessLog := (st.sessLog ++ [(st.conn.url, st.conn.token)])
              ++ [(st.conn.url, st.conn.token)],
            attemptPos := st.attemptPos ++ [st.pos],
            pos := p2,
            sleeps := st.sleeps ++ [st.backoff],
            backoff := min (st.backoff * 2) st.conn.max_backoff }
          (by show N ≤ st.conn.attempts + 1 + n; omega)
          (by show st.conn.attempts + 1 < N; omega)
          (by show N ≤ st.conn.retries + 1; omega)
          hu ht hc
        exact ⟨st2, hgo, e1, e2, e3, e4⟩
      · exact absurd rfl hreset
      · simp only [continueAfter]
        obtain ⟨st2, hgo, e1, e2, e3, e4⟩ := ih
          { st with
            conn := { st.conn with attempts := st.conn.attempts + 1 },
            sessLog := (st.sessLog ++ [(st.conn.url, st.conn.token)])
              ++ [(st.conn.url, st.conn.token)],
            attemptPos := st.attemptPos ++ [st.pos],
            pos := p,
            sleeps := st.sleeps ++ [st.backoff],
            backoff := min (st.backoff * 2) st.conn.max_backoff }
          (by show N ≤ st.conn.attempts + 1 + n; omega)
          (by show st.conn.attempts + 1 < N; omega)
          (by show N ≤ st.conn.retries + 1; omega)
          hu ht hc
        exact ⟨st2, hgo, e1, e2, e3, e4⟩

/-- C1: a call through Connection._retry (with a body that does not lack its
required reset capability) whose wrapped operation fails with a 5xx status
on each of its first N minus one attempts and succeeds on attempt N, with N
within the allowed attempts, returns the success result, leaves the session
pair and the transport handle exactly as they were at the start of the
call, and performs no authentication at all. -/
theorem retry_5xx_convergence (auth : Nat → String × String)
    (op : Nat → Nat → OpOutcome × Nat) (reset : ResetFunc) (c : Connection)
    (p0 N rv : Nat) (hreset : reset ≠ .defaultReset)
    (hu : truthy c.url = true) (ht : truthy c.token = true)
    (hc : c.http_conn.isSome = true) (hN1 : 1 ≤ N) (hNR : N ≤ c.retries + 1)
    (hop5 : ∀ i p, 1 ≤ i → i < N → ∃ s, (op i p).1 = .clientErr s ∧ 500 ≤ s ∧ s ≤ 599)
    (hopN : ∀ p, (op N p).1 = .success rv) :
    ∃ st2, Connection_retry auth op reset c p0 = some (.ok rv st2) ∧
      st2.conn.url = c.url ∧ st2.conn.token = c.token ∧
      st2.conn.http_conn = c.http_conn ∧ st2.authCalls = 0 := by
  obtain ⟨st2, hgo, e1, e2, e3, e4⟩ :=
    retry_5xx_aux auth op reset hreset N rv hop5 hopN (c.retries + 1)
      (initialRunState c p0)
      (by show N ≤ 0 + (c.retries + 1); omega)
      (by show 0 < N; omega)
      (by show N ≤ c.retries + 1; omega)
      hu ht hc
  exact ⟨st2, hgo, e1, e2, e3, e4⟩

/-- Witness for C1 at a concrete input: one 503 failure, then success with
value 7, on a live connection with five retries. -/
theorem retry_5xx_convergence_witness :
    ∃ st2, Connection_retry constAuth failThenOk .noReset liveConn 0 =
        some (.ok 7 st2) ∧
      st2.conn.url = liveConn.url ∧ st2.conn.token = liveConn.token ∧
      st2.conn.http_conn = liveConn.http_conn ∧ st2.authCalls = 0 :=
  retry_5xx_convergence constAuth failThenOk .noReset liveConn 0 2 7
    (by decide) (by decide) (by decide) (by decide) (by decide) (by decide)
    (fun i p h1 h2 => by
      have hi : i = 1 := by omega
      subst hi
      exact ⟨503, rfl, by omega, by omega⟩)
    (fun p => rfl)

/-! Claim C2: 401 handling, session invalidation and the one-shot re-auth. -/

lemma continueAfter_authInv (reset : ResetFunc) (st : RunState) (h : authInv st) :
    (∀ st2, continueAfter reset st = .again st2 → authInv st2) ∧
    (∀ r, continueAfter reset st = .done r → r.state.authCalls ≤ 1) := by
  obtain ⟨h1, h2, h3⟩ := h
  rcases reset with _ | _ | q
  · refine ⟨fun st2 hx => ?_, fun r hx => by simp [continueAfter] at hx⟩
    simp only [continueAfter, IterResult.again.injEq] at hx
    subst hx
    exact ⟨h1, h2, h3⟩
  · refine ⟨fun st2 hx => by simp [continueAfter] at hx, fun r hx => ?_⟩
    simp only [continueAfter, IterResult.done.injEq] at hx
    subst hx
    exact h2
  · refine ⟨fun st2 hx => ?_, fun r hx => by simp [continueAfter] at hx⟩
    simp only [continueAfter, IterResult.again.injEq] at hx
    subst hx
    exact ⟨h1, h2, h3⟩

lemma classify_authInv (reset : ResetFunc) (o : OpOutcome) (st : RunState)
    (hu : truthy st.conn.url = true) (ht : truthy st.conn.token = true)
    (hcalls : st.authCalls ≤ 1)
    (hretr : st.retried_auth = false → st.authCalls = 0) :
    (∀ st2, classify reset o st = .again st2 → authInv st2) ∧
    (∀ r, classify reset o st = .done r → r.state.authCalls ≤ 1) := by
  have hInvSame : authInv st := by
    refine ⟨fun hf => ⟨hretr hf, hu, ht⟩, hcalls, fun hfal => ?_⟩
    rw [hu, ht] at hfal
    simp at hfal
  rcases o with rv | cert | _ | s
  · refine ⟨fun st2 hc => by simp [classify] at hc, fun r hc => ?_⟩
    simp only [classify, IterResult.done.injEq] at hc
    subst hc
    exact hcalls
  · refine ⟨fun st2 hc => by simp [classify] at hc, fun r hc => ?_⟩
    simp only [classify, IterResult.done.injEq] at hc
    subst hc
    exact hcalls
  · rcases handleTransportErr_cases st with ⟨hh, _⟩ | ⟨hh, _⟩
    · refine ⟨fun st2 hc => by simp [classify, hh] at hc, fun r hc => ?_⟩
      simp only [classify, hh, IterResult.done.injEq] at hc
      subst hc
      exact hcalls
    · have hInv2 : authInv { st with conn := { st.conn with http_conn := none } } :=
        ⟨fun hf => ⟨hretr hf, hu, ht⟩, hcalls, fun hfal => by
          rw [hu, ht] at hfal; simp at hfal⟩
      have hCA := continueAfter_authInv reset _ hInv2
      refine ⟨fun st2 hc => ?_, fun r hc => ?_⟩
      · simp only [classify, hh] at hc
        exact hCA.1 st2 hc
      · simp only [classify, hh] at hc
        exact hCA.2 r hc
  · rcases handleClientException_cases s st with
      hh | ⟨_, hh⟩ | ⟨_, hret, hh⟩ | ⟨_, hh⟩ | ⟨_, hh⟩
    · refine ⟨fun st2 hc => by simp [classify, hh] at hc, fun r hc => ?_⟩
      simp only [classify, hh, IterResult.done.injEq] at hc
      subst hc
      exact hcalls
    · refine ⟨fun st2 hc => by simp [classify, hh] at hc, fun r hc => ?_⟩
      simp only [classify, hh, IterResult.done.injEq] at hc
      subst hc
      exact hcalls
    · have hInv2 : authInv { st with
          conn := { st.conn with url := none, token := none },
          retried_auth := true } := by
        refine ⟨fun hf => by simp at hf, ?_, fun _ => hretr hret⟩
        show st.authCalls ≤ 1
        exact hcalls
      have hCA := continueAfter_authInv reset _ hInv2
      refine ⟨fun st2 hc => ?_, fun r hc => ?_⟩
      · simp only [classify, hh] at hc
        exact hCA.1 st2 hc
      · simp only [classify, hh] at hc
        exact hCA.2 r hc
    · have hInv2 : authInv { st with conn := { st.conn with http_conn := none } } :=
        ⟨fun hf => ⟨hretr hf, hu, ht⟩, hcalls, fun hfal => by
          rw [hu, ht] at hfal; simp at hfal⟩
      have hCA := continueAfter_authInv reset _ hInv2
      refine ⟨fun st2 hc => ?_, fun r hc => ?_⟩
      · simp only [classify, hh] at hc
        exact hCA.1 st2 hc
      · simp only [classify, hh] at hc
        exact hCA.2 r hc
    · have hCA := continueAfter_authInv reset _ hInvSame
      refine ⟨fun st2 hc => ?_, fun r hc => ?_⟩
      · simp only [classify, hh] at hc
        exact hCA.1 st2 hc
      · simp only [classify, hh] at hc
        exact hCA.2 r hc

lemma authStep_facts (auth : Nat → String × String) (st : RunState)
    (hA : authOk auth) (h : authInv st) :
    truthy (authStep auth st).conn.url = true ∧
    truthy (authStep auth st).conn.token = true ∧
    (authStep auth st).authCalls ≤ 1 ∧
    ((authStep auth st).retried_auth = false → (authStep auth st).authCalls = 0) := by
  obtain ⟨h1, h2, h3⟩ := h
  unfold authStep
  by_cases hcond : (truthy st.conn.url && truthy st.conn.token) = true
  · rw [if_pos hcond]
    have hab : truthy st.conn.url = true ∧ truthy st.conn.token = true := by
      simpa using hcond
    exact ⟨hab.1, hab.2, h2, fun hf => (h1 hf).1⟩
  · rw [if_neg hcond]
    have hc0 : st.authCalls = 0 := h3 (by simpa using hcond)
    refine ⟨truthy_some_ne (hA st.authCalls).1, truthy_some_ne (hA st.authCalls).2,
      ?_, ?_⟩
    · show st.authCalls + 1 ≤ 1
      omega
    · intro hf
      exact absurd
        (by rw [(h1 hf).2.1, (h1 hf).2.2]; rfl :
          (truthy st.conn.url && truthy st.conn.token) = true) hcond

lemma retryIter_authInv (auth : Nat → String × String)
    (op : Nat → Nat → OpOutcome × Nat) (reset : ResetFunc) (hA : authOk auth)
    (st : RunState) (h : authInv st) :
    (∀ st2, retryIter auth op reset st = .again st2 → authInv st2) ∧
    (∀ r, retryIter auth op reset st = .done r → r.state.authCalls ≤ 1) := by
  have hB : authInv (bumpAttempts st) := h
  obtain ⟨hu, ht, hcalls, hretr⟩ := authStep_facts auth (bumpAttempts st) hA hB
  have hu2 : truthy (connStep (logSession (authStep auth (bumpAttempts st)))).conn.url
      = true := by
    rw [connStep_url]; exact hu
  have ht2 : truthy (connStep (logSession (authStep auth (bumpAttempts st)))).conn.token
      = true := by
    rw [connStep_token]; exact ht
  have hcalls2 : (connStep (logSession (authStep auth (bumpAttempts st)))).authCalls
      ≤ 1 := by
    rw [connStep_authCalls]; exact hcalls
  have hretr2 : (connStep (logSession (authStep auth (bumpAttempts st)))).retried_auth
        = false →
      (connStep (logSession (authStep auth (bumpAttempts st)))).authCalls = 0 := by
    rw [connStep_retried, connStep_authCalls]; exact hretr
  constructor
  · intro st2 hiter
    simp only [retryIter] at hiter
    refine (classify_authInv reset _ _ ?_ ?_ ?_ ?_).1 st2 hiter
    · exact hu2
    · exact ht2
    · exact hcalls2
    · exact hretr2
  · intro r hiter
    simp only [retryIter] at hiter
    refine (classify_authInv reset _ _ ?_ ?_ ?_ ?_).2 r hiter
    · exact hu2
    · exact ht2
    · exact hcalls2
    · exact hretr2

lemma retry_authCalls_le_one (auth : Nat → String × String)
    (op : Nat → Nat → OpOutcome × Nat) (reset : ResetFunc) (hA : authOk auth) :
    ∀ fuel st, authInv st → ∀ r, retryGo auth op reset fuel st = some r →
      r.state.authCalls ≤ 1 :=
  retryGo_inv auth op reset authInv (fun r => r.state.authCalls ≤ 1)
    (fun st st2 h hi => (retryIter_authInv auth op reset hA st h).1 st2 hi)
    (fun st r h hi => (retryIter_authInv auth op reset hA st h).2 r hi)
    (fun st h => h.2.1)

/-- C2 counterexample: with zero retries, a 401 on the only attempt is
re-raised before the 401 classification runs, so the session pair is NOT
cleared, contradicting the claim that a 401 always clears the pair. -/
theorem retry_401_final_attempt_keeps_session :
    raisedExc (Connection_retry constAuth fourOhOne .noReset zeroRetryConn 0) =
      some (.client 401) ∧
    resultSession (Connection_retry constAuth fourOhOne .noReset zeroRetryConn 0) =
      some (some "http://storage.test/v1/a", some "tok0") := by
  exact ⟨by decide, by decide⟩

/-- C2 (amended): a 401 on an attempt within the retry budget clears both
url and token (on the final allowed attempt the failure is re-raised before
classification, leaving the session intact, which is the needed amendment);
a 401 after auth has already been retried is fatal; a 401 with falsy
credentials is fatal; a first 401 with credentials and budget marks auth
retried after clearing the session; and, with an authenticator returning
real pairs and a truthy starting session, a whole call authenticates at
most once. -/
theorem retry_auth_invalidation :
    (∀ st, st.conn.attempts ≤ st.conn.retries →
      (handleClientException 401 st).state.conn.url = none ∧
      (handleClientException 401 st).state.conn.token = none)
    ∧ (∀ st, st.retried_auth = true →
        ∃ st2, handleClientException 401 st = .fatal st2)
    ∧ (∀ st,
        (truthy st.conn.authurl && truthy st.conn.user && truthy st.conn.key)
          = false →
        ∃ st2, handleClientException 401 st = .fatal st2)
    ∧ (∀ st, st.conn.attempts ≤ st.conn.retries → st.retried_auth = false →
        (truthy st.conn.authurl && truthy st.conn.user && truthy st.conn.key)
          = true →
        handleClientException 401 st =
          .retry { st with
            conn := { st.conn with url := none, token := none },
            retried_auth := true })
    ∧ (∀ auth op reset c p0 r, authOk auth →
        truthy c.url = true → truthy c.token = true →
        Connection_retry auth op reset c p0 = some r →
        r.state.authCalls ≤ 1) := by
  refine ⟨?_, ?_, ?_, ?_, ?_⟩
  · intro st hle
    simp only [handleClientException]
    rw [if_neg (show ¬ st.conn.retries < st.conn.attempts by omega),
      if_pos (show True from trivial)]
    split <;> exact ⟨rfl, rfl⟩
  · intro st h2
    by_cases c1 : st.conn.retries < st.conn.attempts
    · simp only [handleClientException]
      rw [if_pos c1]
      exact ⟨st, rfl⟩
    · simp only [handleClientException]
      rw [if_neg c1, if_pos (show True from trivial),
        if_pos (show (st.retried_auth ||
          !(truthy st.conn.authurl && truthy st.conn.user && truthy st.conn.key))
            = true by rw [h2]; rfl)]
      exact ⟨_, rfl⟩
  · intro st hcred
    by_cases c1 : st.conn.retries < st.conn.attempts
    · simp only [handleClientException]
      rw [if_pos c1]
      exact ⟨st, rfl⟩
    · simp only [handleClientException]
      rw [if_neg c1, if_pos (show True from trivial),
        if_pos (show (st.retried_auth ||
          !(truthy st.conn.authurl && truthy st.conn.user && truthy st.conn.key))
            = true by rw [hcred]; cases st.retried_auth <;> rfl)]
      exact ⟨_, rfl⟩
  · intro st hle hret hcred
    simp only [handleClientException]
    rw [if_neg (show ¬ st.conn.retries < st.conn.attempts by omega),
      if_pos (show True from trivial),
      if_neg (show ¬ (st.retried_auth ||
        !(truthy st.conn.authurl && truthy st.conn.user && truthy st.conn.key))
          = true by rw [hret, hcred]; simp)]
  · intro auth op reset c p0 r hA hu ht hr
    exact retry_authCalls_le_one auth op reset hA (c.retries + 1)
      (initialRunState c p0)
      ⟨fun _ => ⟨rfl, hu, ht⟩, by show (0 : Nat) ≤ 1; omega, fun _ => rfl⟩ r hr

/-- Witness for C2 at concrete inputs: a 401 within budget clears the pair,
and a run that turns 401 on every attempt authenticates exactly once before
failing. -/
theorem retry_auth_invalidation_witness :
    ((handleClientException 401 (initialRunState liveConn 0)).state.conn.url = none ∧
     (handleClientException 401 (initialRunState liveConn 0)).state.conn.token = none) ∧
    (Connection_retry constAuth fourOhOne .noReset liveConn 0).elim False
      (fun r => r.state.authCalls ≤ 1) := by
  constructor
  · exact retry_auth_invalidation.1 (initialRunState liveConn 0) (by decide)
  · cases hrun : Connection_retry constAuth fourOhOne .noReset liveConn 0 with
    | none => exact absurd hrun (by decide)
    | some r =>
      simp only [Option.elim]
      exact retry_auth_invalidation.2.2.2.2 constAuth fourOhOne .noReset liveConn 0 r
        (fun _ => ⟨by show "http://fresh.test" ≠ ""; decide,
          by show "tokF" ≠ ""; decide⟩) (by decide) (by decide) hrun

/-! Claim C3: body-reset coordination of Connection.put_object. -/

lemma retryIter_defaultReset_raises (auth : Nat → String × String)
    (op : Nat → Nat → OpOutcome × Nat) (st : RunState)
    (hle2 : st.conn.attempts + 1 ≤ st.conn.retries)
    (ho : (op (st.conn.attempts + 1) st.pos).1 = .sockErr ∨
      ∃ s, (op (st.conn.attempts + 1) st.pos).1 = .clientErr s ∧
        retryableStatus st.conn.retry_on_ratelimit s) :
    ∃ st2, retryIter auth op .defaultReset st = .done (.raised .resetErr st2) ∧
      st2.attemptPos = st.attemptPos ++ [st.pos] := by
  have hA : (recordAttempt (connStep (logSession (authStep auth (bumpAttempts st))))).conn.attempts
      = st.conn.attempts + 1 := stR_attempts auth st
  have hP : (recordAttempt (connStep (logSession (authStep auth (bumpAttempts st))))).pos
      = st.pos := stR_pos auth st
  show ∃ st2, classify .defaultReset
      (op (recordAttempt (connStep (logSession (authStep auth (bumpAttempts st))))).conn.attempts
        (recordAttempt (connStep (logSession (authStep auth (bumpAttempts st))))).pos).1
      (opStep op (recordAttempt (connStep (logSession (authStep auth (bumpAttempts st))))))
      = .done (.raised .resetErr st2) ∧ st2.attemptPos = st.attemptPos ++ [st.pos]
  rw [hA, hP]
  have hle3 : (opStep op (recordAttempt (connStep (logSession (authStep auth (bumpAttempts st)))))).conn.attempts
      ≤ (opStep op (recordAttempt (connStep (logSession (authStep auth (bumpAttempts st)))))).conn.retries := by
    rw [show (opStep op (recordAttempt (connStep (logSession (authStep auth (bumpAttempts st)))))).conn.attempts
        = st.conn.attempts + 1 from stR_attempts auth st,
      show (opStep op (recordAttempt (connStep (logSession (authStep auth (bumpAttempts st)))))).conn.retries
        = st.conn.retries from stR_retries auth st]
    exact hle2
  rcases ho with hsock | ⟨s, hcs, hs⟩
  · rw [hsock]
    simp only [classify]
    rcases handleTransportErr_cases
        (opStep op (recordAttempt (connStep (logSession (authStep auth (bumpAttempts st))))))
      with ⟨hh, hgt⟩ | ⟨hh, _⟩
    · omega
    · rw [hh]
      simp only [continueAfter]
      refine ⟨_, rfl, ?_⟩
      show (recordAttempt (connStep (logSession (authStep auth (bumpAttempts st))))).attemptPos
        = st.attemptPos ++ [st.pos]
      exact stR_attemptPos auth st
  · rw [hcs]
    simp only [classify]
    have hs2 : retryableStatus
        (opStep op (recordAttempt (connStep (logSession (authStep auth (bumpAttempts st)))))).conn.retry_on_ratelimit
        s := by
      rw [show (opStep op (recordAttempt (connStep (logSession (authStep auth (bumpAttempts st)))))).conn.retry_on_ratelimit
          = st.conn.retry_on_ratelimit from stR_ratelimit auth st]
      exact hs
    obtain ⟨stx, heq, hapos, _, _, _⟩ := handleClientException_retryable s _ hle3 hs2
    rw [heq]
    simp only [continueAfter]
    refine ⟨_, rfl, ?_⟩
    show stx.attemptPos = st.attemptPos ++ [st.pos]
    rw [hapos]
    show (recordAttempt (connStep (logSession (authStep auth (bumpAttempts st))))).attemptPos
      = st.attemptPos ++ [st.pos]
    exact stR_attemptPos auth st

lemma continueAfter_pos (q : Nat) (st : RunState)
    (h : ∀ x ∈ st.attemptPos, x = q) :
    (∀ st2, continueAfter (.seekTo q) st = .again st2 → posInv q st2) ∧
    (∀ r, continueAfter (.seekTo q) st = .done r →
      ∀ x ∈ r.state.attemptPos, x = q) := by
  refine ⟨fun st2 hx => ?_, fun r hx => by simp [continueAfter] at hx⟩
  simp only [continueAfter, IterResult.again.injEq] at hx
  subst hx
  exact ⟨rfl, h⟩

lemma classify_pos (q : Nat) (o : OpOutcome) (st : RunState)
    (h : ∀ x ∈ st.attemptPos, x = q) :
    (∀ st2, classify (.seekTo q) o st = .again st2 → posInv q st2) ∧
    (∀ r, classify (.seekTo q) o st = .done r →
      ∀ x ∈ r.state.attemptPos, x = q) := by
  rcases o with rv | cert | _ | s
  · refine ⟨fun st2 hc => by simp [classify] at hc, fun r hc => ?_⟩
    simp only [classify, IterResult.done.injEq] at hc
    subst hc
    exact h
  · refine ⟨fun st2 hc => by simp [classify] at hc, fun r hc => ?_⟩
    simp only [classify, IterResult.done.injEq] at hc
    subst hc
    exact h
  · rcases handleTransportErr_cases st with ⟨hh, _⟩ | ⟨hh, _⟩
    · refine ⟨fun st2 hc => by simp [classify, hh] at hc, fun r hc => ?_⟩
      simp only [classify, hh, IterResult.done.injEq] at hc
      subst hc
      exact h
    · have hCA := continueAfter_pos q
        { st with conn := { st.conn with http_conn := none } } h
      refine ⟨fun st2 hc => ?_, fun r hc => ?_⟩
      · simp only [classify, hh] at hc
        exact hCA.1 st2 hc
      · simp only [classify, hh] at hc
        exact hCA.2 r hc
  · rcases handleClientException_cases s st with
      hh | ⟨_, hh⟩ | ⟨_, hret, hh⟩ | ⟨_, hh⟩ | ⟨_, hh⟩
    · refine ⟨fun st2 hc => by simp [classify, hh] at hc, fun r hc => ?_⟩
      simp only [classify, hh, IterResult.done.injEq] at hc
      subst hc
      exact h
    · refine ⟨fun st2 hc => by simp [classify, hh] at hc, fun r hc => ?_⟩
      simp only [classify, hh, IterResult.done.injEq] at hc
      subst hc
      exact h
    · have hCA := continueAfter_pos q
        { st with
          conn := { st.conn with url := none, token := none },
          retried_auth := true } h
      refine ⟨fun st2 hc => ?_, fun r hc => ?_⟩
      · simp only [classify, hh] at hc
        exact hCA.1 st2 hc
      · simp only [classify, hh] at hc
        exact hCA.2 r hc
    · have hCA := continueAfter_pos q
        { st with conn := { st.conn with http_conn := none } } h
      refine ⟨fun st2 hc => ?_, fun r hc => ?_⟩
      · simp only [classify, hh] at hc
        exact hCA.1 st2 hc
      · simp only [classify, hh] at hc
        exact hCA.2 r hc
    · have hCA := continueAfter_pos q st h
      refine ⟨fun st2 hc => ?_, fun r hc => ?_⟩
      · simp only [classify, hh] at hc
        exact hCA.1 st2 hc
      · simp only [classify, hh] at hc
        exact hCA.2 r hc

lemma retryIter_pos (auth : Nat → String × String)
    (op : Nat → Nat → OpOutcome × Nat) (q : Nat) (st : RunState)
    (h : posInv q st) :
    (∀ st2, retryIter auth op (.seekTo q) st = .again st2 → posInv q st2) ∧
    (∀ r, retryIter auth op (.seekTo q) st = .done r →
      ∀ x ∈ r.state.attemptPos, x = q) := by
  have hall : ∀ x ∈ (recordAttempt (connStep (logSession (authStep auth (bumpAttempts st))))).attemptPos,
      x = q := by
    rw [stR_attemptPos auth st]
    intro x hx
    rcases List.mem_append.mp hx with h1 | h2
    · exact h.2 x h1
    · simp at h2
      rw [h2]
      exact h.1
  constructor
  · intro st2 hiter
    simp only [retryIter] at hiter
    refine (classify_pos q _ _ ?_).1 st2 hiter
    exact hall
  · intro r hiter
    simp only [retryIter] at hiter
    refine (classify_pos q _ _ ?_).2 r hiter
    exact hall

lemma retry_pos_all (auth : Nat → String × String)
    (op : Nat → Nat → OpOutcome × Nat) (q : Nat) :
    ∀ fuel st, posInv q st → ∀ r, retryGo auth op (.seekTo q) fuel st = some r →
      ∀ x ∈ r.state.attemptPos, x = q :=
  retryGo_inv auth op (.seekTo q) (posInv q)
    (fun r => ∀ x ∈ r.state.attemptPos, x = q)
    (fun st st2 h hi => (retryIter_pos auth op q st h).1 st2 hi)
    (fun st r h hi => (retryIter_pos auth op q st h).2 r hi)
    (fun st h => h.2)

/-- C3: a Connection.put_object call with positive retries on a stream body
lacking tell or seek that fails retryably on its first attempt raises the
reset failure (unable to reset contents for reupload) instead of re-sending
the stream, the operation having been invoked exactly once; and with tell
and seek available the reset capability rewinds the stream so that every
operation invocation starts at the original position. -/
theorem put_object_body_reset :
    (∀ auth op c hasTell hasSeek p0,
      0 < c.retries → (hasTell && hasSeek) = false →
      ((op 1 p0).1 = .sockErr ∨
        ∃ s, (op 1 p0).1 = .clientErr s ∧
          retryableStatus c.retry_on_ratelimit s) →
      ∃ st2, Connection_put_object auth op c (.stream hasTell hasSeek p0) =
          some (.raised .resetErr st2) ∧ st2.attemptPos = [p0])
    ∧ (∀ auth op c hasTell hasSeek p0 r,
        hasTell = true → hasSeek = true → 0 < c.retries →
        Connection_put_object auth op c (.stream hasTell hasSeek p0) = some r →
        ∀ x ∈ r.state.attemptPos, x = p0) := by
  constructor
  · intro auth op c hasTell hasSeek p0 hr hty ho
    have hrf : put_object_reset_func c.retries (.stream hasTell hasSeek p0) =
        .defaultReset := by
      simp only [put_object_reset_func]
      rw [if_neg]
      rintro ⟨_, h1, h2⟩
      rw [h1, h2] at hty
      simp at hty
    unfold Connection_put_object Connection_retry
    rw [hrf]
    simp only [retryGo]
    rw [if_pos (show (initialRunState c (Contents.position (.stream hasTell hasSeek p0))).conn.attempts
        ≤ (initialRunState c (Contents.position (.stream hasTell hasSeek p0))).conn.retries
      from by show (0 : Nat) ≤ c.retries; omega)]
    obtain ⟨st2, hiter, hapos⟩ :=
      retryIter_defaultReset_raises auth op
        (initialRunState c (Contents.position (.stream hasTell hasSeek p0)))
        (by show 0 + 1 ≤ c.retries; omega)
        (by
          show (op (0 + 1) p0).1 = .sockErr ∨
            ∃ s, (op (0 + 1) p0).1 = .clientErr s ∧
              retryableStatus c.retry_on_ratelimit s
          simpa using ho)
    rw [hiter]
    refine ⟨st2, rfl, ?_⟩
    simpa using hapos
  · intro auth op c hasTell hasSeek p0 r h1 h2 hr hrun
    have hrf : put_object_reset_func c.retries (.stream hasTell hasSeek p0) =
        .seekTo p0 := by
      simp only [put_object_reset_func]
      rw [if_pos ⟨hr, h1, h2⟩]
    unfold Connection_put_object Connection_retry at hrun
    rw [hrf] at hrun
    exact retry_pos_all auth op p0 (c.retries + 1) _
      ⟨rfl, fun x hx => absurd hx (List.not_mem_nil x)⟩ r hrun

/-- Witness for C3 at concrete inputs: a non-rewindable stream with one 503
raises the reset error after a single attempt; a rewindable stream that
fails twice and then succeeds starts every attempt at position 42. -/
theorem put_object_body_reset_witness :
    (∃ st2, Connection_put_object constAuth (alwaysStatus 503) liveConn
        (.stream false false 42) = some (.raised .resetErr st2) ∧
      st2.attemptPos = [42]) ∧
    (∀ x ∈ (Connection_put_object constAuth failThenOk liveConn
        (.stream true true 42)).elim [] (fun r => r.state.attemptPos), x = 42) := by
  constructor
  · exact put_object_body_reset.1 constAuth (alwaysStatus 503) liveConn false false 42
      (by decide) (by decide) (.inr ⟨503, rfl, .inr (.inl (by omega))⟩)
  · cases hrun : Connection_put_object constAuth failThenOk liveConn
        (.stream true true 42) with
    | none => exact absurd hrun (by decide)
    | some r =>
      simp only [Option.elim]
      exact put_object_body_reset.2 constAuth failThenOk liveConn true true 42 r
        rfl rfl (by decide) hrun

/-! Claim C4: exponential backoff growth with cap. -/

lemma min_double (x M : Nat) : min (min x M * 2) M = min (x * 2) M := by
  omega

lemma continueAfter_sleeps (s0 M : Nat) (reset : ResetFunc) (st : RunState)
    (h : sleepsSpec s0 M st) :
    (∀ st2, continueAfter reset st = .again st2 → sleepsSpec s0 M st2) ∧
    (∀ r, continueAfter reset st = .done r → sleepsSpec s0 M r.state) := by
  obtain ⟨hM, hb, hget⟩ := h
  have hspec2 : sleepsSpec s0 M { st with
      sleeps := st.sleeps ++ [st.backoff],
      backoff := min (st.backoff * 2) st.conn.max_backoff,
      sessLog := st.sessLog ++ [(st.conn.url, st.conn.token)] } := by
    refine ⟨hM, ?_, ?_⟩
    · show min (st.backoff * 2) st.conn.max_backoff
        = min (s0 * 2 ^ (st.sleeps ++ [st.backoff]).length) M
      rw [hM, hb, List.length_append]
      show min (min (s0 * 2 ^ st.sleeps.length) M * 2) M
        = min (s0 * 2 ^ (st.sleeps.length + 1)) M
      rw [pow_succ, min_double]
      ring_nf
    · intro i hi
      show (st.sleeps ++ [st.backoff])[i] = min (s0 * 2 ^ i) M
      have hi2 : i < st.sleeps.length + 1 := by
        simpa using hi
      by_cases hlt : i < st.sleeps.length
      · rw [List.getElem_append_left hlt]
        exact hget i hlt
      · have hieq : i = st.sleeps.length := by omega
        rw [List.getElem_concat_length st.sleeps st.backoff i hieq]
        rw [hieq]
        exact hb
  rcases reset with _ | _ | q
  · refine ⟨fun st2 hx => ?_, fun r hx => by simp [continueAfter] at hx⟩
    simp only [continueAfter, IterResult.again.injEq] at hx
    subst hx
    exact hspec2
  · refine ⟨fun st2 hx => by simp [continueAfter] at hx, fun r hx => ?_⟩
    simp only [continueAfter, IterResult.done.injEq] at hx
    subst hx
    exact hspec2
  · refine ⟨fun st2 hx => ?_, fun r hx => by simp [continueAfter] at hx⟩
    simp only [continueAfter, IterResult.again.injEq] at hx
    subst hx
    exact hspec2

lemma classify_sleeps (s0 M : Nat) (reset : ResetFunc) (o : OpOutcome)
    (st : RunState) (h : sleepsSpec s0 M st) :
    (∀ st2, classify reset o st = .again st2 → sleepsSpec s0 M st2) ∧
    (∀ r, classify reset o st = .done r → sleepsSpec s0 M r.state) := by
  rcases o with rv | cert | _ | s
  · refine ⟨fun st2 hc => by simp [classify] at hc, fun r hc => ?_⟩
    simp only [classify, IterResult.done.injEq] at hc
    subst hc
    exact h
  · refine ⟨fun st2 hc => by simp [classify] at hc, fun r hc => ?_⟩
    simp only [classify, IterResult.done.injEq] at hc
    subst hc
    exact h
  · rcases handleTransportErr_cases st with ⟨hh, _⟩ | ⟨hh, _⟩
    · refine ⟨fun st2 hc => by simp [classify, hh] at hc, fun r hc => ?_⟩
      simp only [classify, hh, IterResult.done.injEq] at hc
      subst hc
      exact h
    · have hCA := continueAfter_sleeps s0 M reset
        { st with conn := { st.conn with http_conn := none } } h
      refine ⟨fun st2 hc => ?_, fun r hc => ?_⟩
      · simp only [classify, hh] at hc
        exact hCA.1 st2 hc
      · simp only [classify, hh] at hc
        exact hCA.2 r hc
  · rcases handleClientException_cases s st with
      hh | ⟨_, hh⟩ | ⟨_, hret, hh⟩ | ⟨_, hh⟩ | ⟨_, hh⟩
    · refine ⟨fun st2 hc => by simp [classify, hh] at hc, fun r hc => ?_⟩
      simp only [classify, hh, IterResult.done.injEq] at hc
      subst hc
      exact h
    · refine ⟨fun st2 hc => by simp [classify, hh] at hc, fun r hc => ?_⟩
      simp only [classify, hh, IterResult.done.injEq] at hc
      subst hc
      exact h
    · have hCA := continueAfter_sleeps s0 M reset
        { st with
          conn := { st.conn with url := none, token := none },
          retried_auth := true } h
      refine ⟨fun st2 hc => ?_, fun r hc => ?_⟩
      · simp only [classify, hh] at hc
        exact hCA.1 st2 hc
      · simp only [classify, hh] at hc
        exact hCA.2 r hc
    · have hCA := continueAfter_sleeps s0 M reset
        { st with conn := { st.conn with http_conn := none } } h
      refine ⟨fun st2 hc => ?_, fun r hc => ?_⟩
      · simp only [classify, hh] at hc
        exact hCA.1 st2 hc
      · simp only [classify, hh] at hc
        exact hCA.2 r hc
    · have hCA := continueAfter_sleeps s0 M reset st h
      refine ⟨fun st2 hc => ?_, fun r hc => ?_⟩
      · simp only [classify, hh] at hc
        exact hCA.1 st2 hc
      · simp only [classify, hh] at hc
        exact hCA.2 r hc

lemma retryIter_sleeps (auth : Nat → String × String)
    (op : Nat → Nat → OpOutcome × Nat) (reset : ResetFunc) (s0 M : Nat)
    (st : RunState) (h : sleepsSpec s0 M st) :
    (∀ st2, retryIter auth op reset st = .again st2 → sleepsSpec s0 M st2) ∧
    (∀ r, retryIter auth op reset st = .done r → sleepsSpec s0 M r.state) := by
  obtain ⟨hM, hb, hget⟩ := h
  have hspec : sleepsSpec s0 M
      (opStep op (recordAttempt (connStep (logSession (authStep auth (bumpAttempts st)))))) := by
    refine ⟨?_, ?_, ?_⟩
    · show (connStep (logSession (authStep auth (bumpAttempts st)))).conn.max_backoff = M
      rw [connStep_max_backoff]
      show (authStep auth (bumpAttempts st)).conn.max_backoff = M
      rw [authStep_max_backoff]
      exact hM
    · have e1 : (opStep op (recordAttempt (connStep (logSession (authStep auth (bumpAttempts st)))))).backoff
          = st.backoff := by
        show (connStep (logSession (authStep auth (bumpAttempts st)))).backoff = _
        rw [connStep_backoff]
        show (authStep auth (bumpAttempts st)).backoff = _
        rw [authStep_backoff]
        rfl
      have e2 : (opStep op (recordAttempt (connStep (logSession (authStep auth (bumpAttempts st)))))).sleeps
          = st.sleeps := by
        show (connStep (logSession (authStep auth (bumpAttempts st)))).sleeps = _
        rw [connStep_sleeps]
        show (authStep auth (bumpAttempts st)).sleeps = _
        rw [authStep_sleeps]
        rfl
      rw [e1, e2]
      exact hb
    · have e2 : (opStep op (recordAttempt (connStep (logSession (authStep auth (bumpAttempts st)))))).sleeps
          = st.sleeps := by
        show (connStep (logSession (authStep auth (bumpAttempts st)))).sleeps = _
        rw [connStep_sleeps]
        show (authStep auth (bumpAttempts st)).sleeps = _
        rw [authStep_sleeps]
        rfl
      intro i hi
      rw [e2] at hi
      have := hget i hi
      simp only [e2]
      exact this
  constructor
  · intro st2 hiter
    simp only [retryIter] at hiter
    exact (classify_sleeps s0 M reset _ _ hspec).1 st2 hiter
  · intro r hiter
    simp only [retryIter] at hiter
    exact (classify_sleeps s0 M reset _ _ hspec).2 r hiter

lemma retry_sleeps_all (auth : Nat → String × String)
    (op : Nat → Nat → OpOutcome × Nat) (reset : ResetFunc) (s0 M : Nat) :
    ∀ fuel st, sleepsSpec s0 M st → ∀ r, retryGo auth op reset fuel st = some r →
      sleepsSpec s0 M r.state :=
  retryGo_inv auth op reset (sleepsSpec s0 M) (fun r => sleepsSpec s0 M r.state)
    (fun st st2 h hi => (retryIter_sleeps auth op reset s0 M st h).1 st2 hi)
    (fun st r h hi => (retryIter_sleeps auth op reset s0 M st h).2 r hi)
    (fun st h => h)

/-- C4 counterexample: with starting_backoff ten and max_backoff one, the
first recorded sleep is ten, not min of ten and one as the claim's formula
demands for the first sleep. -/
theorem backoff_first_sleep_uncapped :
    resultSleeps (Connection_retry constAuth (alwaysStatus 503) .noReset
      oddBackoffConn 0) = some [10] ∧
    min (10 * 2 ^ 0) 1 = 1 ∧ (10 : Nat) ≠ 1 := by
  exact ⟨by decide, by decide, by decide⟩

/-- C4 (amended): provided starting_backoff does not exceed max_backoff, the
i-th recorded sleep of any call through Connection._retry (zero-indexed)
lasts min of starting_backoff times two to the i and max_backoff; without
that proviso the first sleep is the uncapped starting_backoff. -/
theorem backoff_doubling_capped (auth : Nat → String × String)
    (op : Nat → Nat → OpOutcome × Nat) (reset : ResetFunc) (c : Connection)
    (p0 : Nat) (r : RetryResult)
    (hsm : c.starting_backoff ≤ c.max_backoff)
    (hrun : Connection_retry auth op reset c p0 = some r) :
    ∀ i : Nat, (h : i < r.state.sleeps.length) →
      r.state.sleeps[i] = min (c.starting_backoff * 2 ^ i) c.max_backoff := by
  have hinit : sleepsSpec c.starting_backoff c.max_backoff (initialRunState c p0) := by
    refine ⟨rfl, ?_, ?_⟩
    · show c.starting_backoff = min (c.starting_backoff * 2 ^ (0 : Nat)) c.max_backoff
      simp
      omega
    · intro i hi
      exact absurd hi (by simp [initialRunState])
  exact (retry_sleeps_all auth op reset c.starting_backoff c.max_backoff
    (c.retries + 1) (initialRunState c p0) hinit r hrun).2.2

/-- Witness for C4 at a concrete input: five 503 attempts with starting
backoff one and maximum sixty-four sleep for one, two, four, eight and
sixteen seconds. -/
theorem backoff_doubling_capped_witness :
    liveConn.starting_backoff ≤ liveConn.max_backoff ∧
    (Connection_retry constAuth (alwaysStatus 503) .noReset liveConn 0).elim False
      (fun r => ∀ i : Nat, (h : i < r.state.sleeps.length) →
        r.state.sleeps[i] = min (liveConn.starting_backoff * 2 ^ i) liveConn.max_backoff) := by
  refine ⟨by decide, ?_⟩
  cases hrun : Connection_retry constAuth (alwaysStatus 503) .noReset liveConn 0 with
  | none => exact absurd hrun (by decide)
  | some r =>
    simp only [Option.elim]
    exact backoff_doubling_capped constAuth (alwaysStatus 503) .noReset liveConn 0 r
      (by decide) hrun

/-! Claim C9: equi-presence of the session pair. -/

lemma continueAfter_sess (reset : ResetFunc) (st : RunState) (h : sessInv st) :
    (∀ st2, continueAfter reset st = .again st2 → sessInv st2) ∧
    (∀ r, continueAfter reset st = .done r → sessInv r.state) := by
  have h2 : sessInv { st with
      sleeps := st.sleeps ++ [st.backoff],
      backoff := min (st.backoff * 2) st.conn.max_backoff,
      sessLog := st.sessLog ++ [(st.conn.url, st.conn.token)] } := by
    refine ⟨h.1, ?_⟩
    intro p hp
    rcases List.mem_append.mp hp with h1 | h2
    · exact h.2 p h1
    · simp at h2
      rw [h2]
      exact h.1
  rcases reset with _ | _ | q
  · refine ⟨fun st2 hx => ?_, fun r hx => by simp [continueAfter] at hx⟩
    simp only [continueAfter, IterResult.again.injEq] at hx
    subst hx
    exact h2
  · refine ⟨fun st2 hx => by simp [continueAfter] at hx, fun r hx => ?_⟩
    simp only [continueAfter, IterResult.done.injEq] at hx
    subst hx
    exact h2
  · refine ⟨fun st2 hx => ?_, fun r hx => by simp [continueAfter] at hx⟩
    simp only [continueAfter, IterResult.again.injEq] at hx
    subst hx
    exact ⟨h2.1, h2.2⟩

lemma classify_sess (reset : ResetFunc) (o : OpOutcome) (st : RunState)
    (h : sessInv st) :
    (∀ st2, classify reset o st = .again st2 → sessInv st2) ∧
    (∀ r, classify reset o st = .done r → sessInv r.state) := by
  rcases o with rv | cert | _ | s
  · refine ⟨fun st2 hc => by simp [classify] at hc, fun r hc => ?_⟩
    simp only [classify, IterResult.done.injEq] at hc
    subst hc
    exact h
  · refine ⟨fun st2 hc => by simp [classify] at hc, fun r hc => ?_⟩
    simp only [classify, IterResult.done.injEq] at hc
    subst hc
    exact h
  · rcases handleTransportErr_cases st with ⟨hh, _⟩ | ⟨hh, _⟩
    · refine ⟨fun st2 hc => by simp [classify, hh] at hc, fun r hc => ?_⟩
      simp only [classify, hh, IterResult.done.injEq] at hc
      subst hc
      exact h
    · have hCA := continueAfter_sess reset
        { st with conn := { st.conn with http_conn := none } } ⟨h.1, h.2⟩
      refine ⟨fun st2 hc => ?_, fun r hc => ?_⟩
      · simp only [classify, hh] at hc
        exact hCA.1 st2 hc
      · simp only [classify, hh] at hc
        exact hCA.2 r hc
  · rcases handleClientException_cases s st with
      hh | ⟨_, hh⟩ | ⟨_, hret, hh⟩ | ⟨_, hh⟩ | ⟨_, hh⟩
    · refine ⟨fun st2 hc => by simp [classify, hh] at hc, fun r hc => ?_⟩
      simp only [classify, hh, IterResult.done.injEq] at hc
      subst hc
      exact h
    · refine ⟨fun st2 hc => by simp [classify, hh] at hc, fun r hc => ?_⟩
      simp only [classify, hh, IterResult.done.injEq] at hc
      subst hc
      exact ⟨rfl, h.2⟩
    · have hCA := continueAfter_sess reset
        { st with
          conn := { st.conn with url := none, token := none },
          retried_auth := true } ⟨rfl, h.2⟩
      refine ⟨fun st2 hc => ?_, fun r hc => ?_⟩
      · simp only [classify, hh] at hc
        exact hCA.1 st2 hc
      · simp only [classify, hh] at hc
        exact hCA.2 r hc
    · have hCA := continueAfter_sess reset
        { st with conn := { st.conn with http_conn := none } } ⟨h.1, h.2⟩
      refine ⟨fun st2 hc => ?_, fun r hc => ?_⟩
      · simp only [classify, hh] at hc
        exact hCA.1 st2 hc
      · simp only [classify, hh] at hc
        exact hCA.2 r hc
    · have hCA := continueAfter_sess reset st h
      refine ⟨fun st2 hc => ?_, fun r hc => ?_⟩
      · simp only [classify, hh] at hc
        exact hCA.1 st2 hc
      · simp only [classify, hh] at hc
        exact hCA.2 r hc

lemma retryIter_sess (auth : Nat → String × String)
    (op : Nat → Nat → OpOutcome × Nat) (reset : ResetFunc) (st : RunState)
    (h : sessInv st) :
    (∀ st2, retryIter auth op reset st = .again st2 → sessInv st2) ∧
    (∀ r, retryIter auth op reset st = .done r → sessInv r.state) := by
  have hA : sessInv (authStep auth (bumpAttempts st)) := by
    unfold authStep
    split
    · exact h
    · exact ⟨rfl, h.2⟩
  have hL : sessInv (logSession (authStep auth (bumpAttempts st))) := by
    refine ⟨hA.1, ?_⟩
    intro p hp
    rcases List.mem_append.mp hp with h1 | h2
    · exact hA.2 p h1
    · simp at h2
      rw [h2]
      exact hA.1
  have hC : sessInv (connStep (logSession (authStep auth (bumpAttempts st)))) := by
    refine ⟨?_, ?_⟩
    · rw [connStep_url, connStep_token]
      exact hL.1
    · rw [connStep_sessLog]
      exact hL.2
  constructor
  · intro st2 hiter
    simp only [retryIter] at hiter
    refine (classify_sess reset _ _ ?_).1 st2 hiter
    exact hC
  · intro r hiter
    simp only [retryIter] at hiter
    refine (classify_sess reset _ _ ?_).2 r hiter
    exact hC

lemma retry_sess_all (auth : Nat → String × String)
    (op : Nat → Nat → OpOutcome × Nat) (reset : ResetFunc) :
    ∀ fuel st, sessInv st → ∀ r, retryGo auth op reset fuel st = some r →
      sessInv r.state :=
  retryGo_inv auth op reset sessInv (fun r => sessInv r.state)
    (fun st st2 h hi => (retryIter_sess auth op reset st h).1 st2 hi)
    (fun st r h hi => (retryIter_sess auth op reset st h).2 r hi)
    (fun st h => h)

/-- C9 counterexample: Connection construction accepts a preauth url without
a preauth token, leaving the session pair partially valid right after
construction, contradicting the claim at its own after-construction point. -/
theorem init_partial_preauth_breaks_pairing :
    (Connection.init (some "http://auth.test") (some "u") (some "k") 5
      (some "http://pre") none 1 64 false).url.isSome = true ∧
    (Connection.init (some "http://auth.test") (some "u") (some "k") 5
      (some "http://pre") none 1 64 false).token.isSome = false := by
  exact ⟨rfl, rfl⟩

/-- C9 (amended): provided construction supplies the preauth url and token
together or not at all, the session pair is equi-present at construction,
and every call through Connection._retry keeps it equi-present at the end
of the call and at every logged point (after authentication and after each
retryable failure classification): authentication sets both, a 401 within
budget clears both, everything else touches neither. -/
theorem session_pair_equi_presence :
    (∀ authurl user key retries pu pt sb mb rr,
      pu.isSome = pt.isSome →
      (Connection.init authurl user key retries pu pt sb mb rr).url.isSome =
        (Connection.init authurl user key retries pu pt sb mb rr).token.isSome)
    ∧ (∀ auth op reset c p0 r,
        c.url.isSome = c.token.isSome →
        Connection_retry auth op reset c p0 = some r →
        r.state.conn.url.isSome = r.state.conn.token.isSome ∧
        ∀ p ∈ r.state.sessLog, pairPresent p) := by
  constructor
  · intro authurl user key retries pu pt sb mb rr h
    exact h
  · intro auth op reset c p0 r h hrun
    exact retry_sess_all auth op reset (c.retries + 1) (initialRunState c p0)
      ⟨h, fun p hp => absurd hp (List.not_mem_nil p)⟩ r hrun

/-- Witness for C9 at concrete inputs: a both-present construction stays
equi-present, and a run seeing a 401 ends with an equi-present pair and
equi-present session snapshots throughout. -/
theorem session_pair_equi_presence_witness :
    ((Connection.init none none none 5 (some "u") (some "t") 1 64 false).url.isSome =
      (Connection.init none none none 5 (some "u") (some "t") 1 64 false).token.isSome) ∧
    (Connection_retry constAuth fourOhOne .noReset liveConn 0).elim False
      (fun r => r.state.conn.url.isSome = r.state.conn.token.isSome ∧
        ∀ p ∈ r.state.sessLog, pairPresent p) := by
  constructor
  · exact session_pair_equi_presence.1 none none none 5 (some "u") (some "t") 1 64
      false rfl
  · cases hrun : Connection_retry constAuth fourOhOne .noReset liveConn 0 with
    | none => exact absurd hrun (by decide)
    | some r =>
      simp only [Option.elim]
      exact session_pair_equi_presence.2 constAuth fourOhOne .noReset liveConn 0 r
        rfl hrun

/-! Claim C8: transport-level failure classification. -/

lemma retryIter_ssl (auth : Nat → String × String)
    (op : Nat → Nat → OpOutcome × Nat) (reset : ResetFunc) (st : RunState)
    (cert : Bool) (v : Nat)
    (hu : truthy st.conn.url = true) (ht : truthy st.conn.token = true)
    (hv : st.conn.http_conn = some v)
    (ho : (op (st.conn.attempts + 1) st.pos).1 = .sslErr cert) :
    retryIter auth op reset st = .done (.raised (.ssl cert)
      { st with
        conn := { st.conn with attempts := st.conn.attempts + 1 },
        sessLog := st.sessLog ++ [(st.conn.url, st.conn.token)],
        attemptPos := st.attemptPos ++ [st.pos],
        pos := (op (st.conn.attempts + 1) st.pos).2 }) := by
  simp [retryIter, opStep, classify, bumpAttempts, authStep, logSession, connStep,
    recordAttempt, hu, ht, hv, ho]

lemma retryIter_sock_backoff (auth : Nat → String × String)
    (op : Nat → Nat → OpOutcome × Nat) (reset : ResetFunc) (st : RunState)
    (v : Nat)
    (hu : truthy st.conn.url = true) (ht : truthy st.conn.token = true)
    (hv : st.conn.http_conn = some v)
    (hle2 : st.conn.attempts + 1 ≤ st.conn.retries)
    (ho : (op (st.conn.attempts + 1) st.pos).1 = .sockErr) :
    retryIter auth op reset st = continueAfter reset
      { st with
        conn := { st.conn with attempts := st.conn.attempts + 1, http_conn := none },
        sessLog := st.sessLog ++ [(st.conn.url, st.conn.token)],
        attemptPos := st.attemptPos ++ [st.pos],
        pos := (op (st.conn.attempts + 1) st.pos).2 } := by
  simp [retryIter, opStep, classify, bumpAttempts, authStep, logSession, connStep,
    recordAttempt, handleTransportErr, hu, ht, hv, ho,
    show ¬ st.conn.retries < st.conn.attempts + 1 by omega]

lemma retryIter_success_reconn (auth : Nat → String × String)
    (op : Nat → Nat → OpOutcome × Nat) (reset : ResetFunc) (st : RunState)
    (rv : Nat)
    (hu : truthy st.conn.url = true) (ht : truthy st.conn.token = true)
    (hn : st.conn.http_conn = none)
    (ho : (op (st.conn.attempts + 1) st.pos).1 = .success rv) :
    retryIter auth op reset st = .done (.ok rv
      { st with
        conn := { st.conn with
          attempts := st.conn.attempts + 1,
          http_conn := some (st.connGen + 1) },
        connGen := st.connGen + 1,
        sessLog := st.sessLog ++ [(st.conn.url, st.conn.token)],
        attemptPos := st.attemptPos ++ [st.pos],
        pos := (op (st.conn.attempts + 1) st.pos).2 }) := by
  simp [retryIter, opStep, classify, bumpAttempts, authStep, logSession, connStep,
    recordAttempt, hu, ht, hn, ho]

lemma retryGo_one_success_reconn (auth : Nat → String × String)
    (op : Nat → Nat → OpOutcome × Nat) (reset : ResetFunc) (fuel : Nat)
    (st : RunState) (rv : Nat)
    (hle : st.conn.attempts ≤ st.conn.retries)
    (hu : truthy st.conn.url = true) (ht : truthy st.conn.token = true)
    (hn : st.conn.http_conn = none)
    (ho : (op (st.conn.attempts + 1) st.pos).1 = .success rv) :
    retryGo auth op reset (fuel + 1) st = some (.ok rv
      { st with
        conn := { st.conn with
          attempts := st.conn.attempts + 1,
          http_conn := some (st.connGen + 1) },
        connGen := st.connGen + 1,
        sessLog := st.sessLog ++ [(st.conn.url, st.conn.token)],
        attemptPos := st.attemptPos ++ [st.pos],
        pos := (op (st.conn.attempts + 1) st.pos).2 }) := by
  simp only [retryGo]
  rw [if_pos hle, retryIter_success_reconn auth op reset st rv hu ht hn ho]

/-- C8 counterexample: a TLS failure that is NOT a certificate-validation
failure, on a connection with five retries remaining, propagates
immediately: no sleep happens and the transport handle is not invalidated,
contradicting the claim that such failures are retried after backoff. -/
theorem ssl_failure_not_retried :
    raisedExc (Connection_retry constAuth alwaysTlsHandshakeErr .noReset liveConn 0) =
      some (.ssl false) ∧
    resultSleeps (Connection_retry constAuth alwaysTlsHandshakeErr .noReset liveConn 0) =
      some [] ∧
    resultHandle (Connection_retry constAuth alwaysTlsHandshakeErr .noReset liveConn 0) =
      some (some 3) := by
  exact ⟨by decide, by decide, by decide⟩

/-- C8 (amended): every SSL-layer failure, certificate-validation or not,
is re-raised immediately by Connection._retry regardless of attempts
remaining, without a sleep and with the transport handle untouched; only
non-TLS transport failures (socket errors and other request exceptions)
are retried: within budget the handle is invalidated and, after one
backoff sleep, the call is re-attempted on a fresh handle. -/
theorem transport_failure_classification :
    (∀ auth op reset c p0 cert v,
      truthy c.url = true → truthy c.token = true → c.http_conn = some v →
      (∀ p, (op 1 p).1 = .sslErr cert) →
      ∃ st2, Connection_retry auth op reset c p0 =
          some (.raised (.ssl cert) st2) ∧
        st2.sleeps = [] ∧ st2.conn.http_conn = some v ∧ st2.conn.attempts = 1)
    ∧ (∀ st, st.conn.attempts ≤ st.conn.retries →
        handleTransportErr st =
          .retry { st with conn := { st.conn with http_conn := none } })
    ∧ (∀ auth op reset c p0 rv v, reset ≠ .defaultReset → 1 ≤ c.retries →
        truthy c.url = true → truthy c.token = true → c.http_conn = some v →
        (∀ p, (op 1 p).1 = .sockErr) → (∀ p, (op 2 p).1 = .success rv) →
        ∃ st2, Connection_retry auth op reset c p0 = some (.ok rv st2) ∧
          st2.sleeps = [c.starting_backoff] ∧
          st2.conn.http_conn = some (v + 1) ∧ st2.conn.http_conn ≠ some v) := by
  refine ⟨?_, ?_, ?_⟩
  · intro auth op reset c p0 cert v hu ht hv hop
    unfold Connection_retry
    simp only [retryGo]
    rw [if_pos (show (initialRunState c p0).conn.attempts
        ≤ (initialRunState c p0).conn.retries from by
      show (0 : Nat) ≤ c.retries; omega)]
    have h1 := retryIter_ssl auth op reset (initialRunState c p0) cert v
      hu ht hv (hop p0)
    rw [h1]
    exact ⟨_, rfl, rfl, hv, rfl⟩
  · intro st hle
    unfold handleTransportErr
    rw [if_neg (show ¬ st.conn.retries < st.conn.attempts by omega)]
  · intro auth op reset c p0 rv v hreset hr1 hu ht hv hop1 hop2
    obtain ⟨k, hk⟩ : ∃ k, c.retries = k + 1 := ⟨c.retries - 1, by omega⟩
    unfold Connection_retry
    simp only [retryGo]
    rw [if_pos (show (initialRunState c p0).conn.attempts
        ≤ (initialRunState c p0).conn.retries from by
      show (0 : Nat) ≤ c.retries; omega)]
    have h1 := retryIter_sock_backoff auth op reset (initialRunState c p0) v
      hu ht hv (by show 0 + 1 ≤ c.retries; omega) (hop1 p0)
    rw [h1]
    rcases reset with _ | _ | q
    · simp only [continueAfter]
      rw [hk]
      have key := retryGo_one_success_reconn auth op .noReset k
        { conn := { c with attempts := 1, http_conn := none },
          retried_auth := false,
          backoff := min (c.starting_backoff * 2) c.max_backoff,
          connGen := c.http_conn.getD 0, authCalls := 0,
          pos := (op 1 p0).2, sleeps := [c.starting_backoff],
          attemptPos := [p0], sessLog := [(c.url, c.token), (c.url, c.token)] }
        rv (by show (1 : Nat) ≤ c.retries; omega) hu ht rfl (hop2 ((op 1 p0).2))
      refine ⟨_, key, rfl, ?_, ?_⟩
      · show some (c.http_conn.getD 0 + 1) = some (v + 1)
        rw [hv]
        rfl
      · show some (c.http_conn.getD 0 + 1) ≠ some v
        rw [hv]
        intro hcon
        simp at hcon
    · exact absurd rfl hreset
    · simp only [continueAfter]
      rw [hk]
      have key := retryGo_one_success_reconn auth op (.seekTo q) k
        { conn := { c with attempts := 1, http_conn := none },
          retried_auth := false,
          backoff := min (c.starting_backoff * 2) c.max_backoff,
          connGen := c.http_conn.getD 0, authCalls := 0,
          pos := q, sleeps := [c.starting_backoff],
          attemptPos := [p0], sessLog := [(c.url, c.token), (c.url, c.token)] }
        rv (by show (1 : Nat) ≤ c.retries; omega) hu ht rfl (hop2 q)
      refine ⟨_, key, rfl, ?_, ?_⟩
      · show some (c.http_conn.getD 0 + 1) = some (v + 1)
        rw [hv]
        rfl
      · show some (c.http_conn.getD 0 + 1) ≠ some v
        rw [hv]
        intro hcon
        simp at hcon

/-- Witness for C8 at concrete inputs: a certificate failure propagates
immediately on the live connection, a transport error within budget yields
the handle-dropping retry classification, and a transport error followed
by success reconnects on a fresh handle after one sleep. -/
theorem transport_failure_classification_witness :
    (∃ st2, Connection_retry constAuth (fun _ p => (.sslErr true, p)) .noReset
        liveConn 0 = some (.raised (.ssl true) st2) ∧
      st2.sleeps = [] ∧ st2.conn.http_conn = some 3 ∧ st2.conn.attempts = 1) ∧
    (∃ st2, Connection_retry constAuth sockThenOk .noReset liveConn 0 =
        some (.ok 9 st2) ∧
      st2.sleeps = [liveConn.starting_backoff] ∧
      st2.conn.http_conn = some (3 + 1) ∧ st2.conn.http_conn ≠ some 3) := by
  constructor
  · exact transport_failure_classification.1 constAuth
      (fun _ p => (.sslErr true, p)) .noReset liveConn 0 true 3
      (by decide) (by decide) rfl (fun p => rfl)
  · exact transport_failure_classification.2.2 constAuth sockThenOk .noReset
      liveConn 0 9 3 (by decide) (by decide) (by decide) (by decide) rfl
      (fun p => rfl) (fun p => rfl)

/-! Claims C5 and C10: full-listing pagination. -/

lemma listingLoop_empty (server : Option String → Headers × List Entry)
    (markerOf : Entry → Except Unit (Option String)) (n : Nat)
    (acc : List Entry) :
    listingLoop server markerOf (n + 1) acc [] = .ok acc := rfl

lemma listingLoop_step (server : Option String → Headers × List Entry)
    (markerOf : Entry → Except Unit (Option String)) (n : Nat)
    (acc listing : List Entry) (e : Entry) (m : Option String)
    (next : List Entry)
    (hlast : listing.getLast? = some e) (hm : markerOf e = .ok m)
    (hnext : (server m).2 = next) :
    listingLoop server markerOf (n + 1) acc listing =
      listingLoop server markerOf n
        (if next.isEmpty then acc else acc ++ next) next := by
  simp only [listingLoop, hlast, hm, hnext]

/-- C5: a full listing against successive pages of sizes two, two, one and
zero returns the five entries concatenated in order, terminating right
after the empty page, the follow-up markers being the last entry's name
(under a delimiter: its name if present, else its subdir value); this holds
for get_container without and with a delimiter, and for get_account. -/
theorem full_listing_pagination :
    (∀ (server : Option String → Headers × List Entry)
        (h1 h2 h3 h4 : Headers) (a b c d e : Entry) (nb nd ne : String),
      b.name = some nb → d.name = some nd → e.name = some ne →
      server none = (h1, [a, b]) →
      server (some nb) = (h2, [c, d]) →
      server (some nd) = (h3, [e]) →
      server (some ne) = (h4, []) →
      ∀ n, get_container_full server none none (n + 4) =
        .ok (h1, [a, b, c, d, e]))
    ∧ (∀ (server : Option String → Headers × List Entry)
        (h1 h2 h3 h4 : Headers) (a c d : Entry) (dl sb nd se : String),
      dl ≠ "" → c.name.isSome = true → d.name = some nd →
      server none = (h1, [a, ⟨none, some sb⟩]) →
      server (some sb) = (h2, [c, d]) →
      server (some nd) = (h3, [⟨none, some se⟩]) →
      server (some se) = (h4, []) →
      ∀ n, get_container_full server (some dl) none (n + 4) =
        .ok (h1, [a, ⟨none, some sb⟩, c, d, ⟨none, some se⟩]))
    ∧ (∀ (server : Option String → Headers × List Entry)
        (h1 h2 h3 h4 : Headers) (a b c d e : Entry) (nb nd ne : String),
      b.name = some nb → d.name = some nd → e.name = some ne →
      server none = (h1, [a, b]) →
      server (some nb) = (h2, [c, d]) →
      server (some nd) = (h3, [e]) →
      server (some ne) = (h4, []) →
      ∀ n, get_account_full server none (n + 4) =
        .ok (h1, [a, b, c, d, e])) := by
  refine ⟨?_, ?_, ?_⟩
  · intro server h1 h2 h3 h4 a b c d e nb nd ne hb hd he hs1 hs2 hs3 hs4 n
    have hmb : containerMarker none b = .ok (some nb) := by
      simp [containerMarker, truthy, hb]
    have hmd : containerMarker none d = .ok (some nd) := by
      simp [containerMarker, truthy, hd]
    have hme : containerMarker none e = .ok (some ne) := by
      simp [containerMarker, truthy, he]
    rw [show n + 4 = n + 1 + 1 + 1 + 1 from rfl]
    simp only [get_container_full, hs1]
    rw [listingLoop_step server _ (n + 1 + 1 + 1) [a, b] [a, b] b (some nb) [c, d]
        rfl hmb (by rw [hs2]),
      listingLoop_step server _ (n + 1 + 1) _ [c, d] d (some nd) [e]
        rfl hmd (by rw [hs3]),
      listingLoop_step server _ (n + 1) _ [e] e (some ne) []
        rfl hme (by rw [hs4])]
    simp [listingLoop_empty, Except.map]
  · intro server h1 h2 h3 h4 a c d dl sb nd se hdl hc hd hs1 hs2 hs3 hs4 n
    have hdlt : truthy (some dl) = true := truthy_some_ne hdl
    have hm1 : containerMarker (some dl) ⟨none, some sb⟩ = .ok (some sb) := by
      simp [containerMarker, hdlt]
    have hmd : containerMarker (some dl) d = .ok (some nd) := by
      simp [containerMarker, hdlt, hd]
    have hm3 : containerMarker (some dl) ⟨none, some se⟩ = .ok (some se) := by
      simp [containerMarker, hdlt]
    rw [show n + 4 = n + 1 + 1 + 1 + 1 from rfl]
    simp only [get_container_full, hs1]
    rw [listingLoop_step server _ (n + 1 + 1 + 1) [a, ⟨none, some sb⟩]
        [a, ⟨none, some sb⟩] ⟨none, some sb⟩ (some sb) [c, d] rfl hm1 (by rw [hs2]),
      listingLoop_step server _ (n + 1 + 1) _ [c, d] d (some nd) [⟨none, some se⟩]
        rfl hmd (by rw [hs3]),
      listingLoop_step server _ (n + 1) _ [⟨none, some se⟩] ⟨none, some se⟩
        (some se) [] rfl hm3 (by rw [hs4])]
    simp [listingLoop_empty, Except.map]
  · intro server h1 h2 h3 h4 a b c d e nb nd ne hb hd he hs1 hs2 hs3 hs4 n
    have hmb : accountMarker b = .ok (some nb) := by
      simp [accountMarker, hb]
    have hmd : accountMarker d = .ok (some nd) := by
      simp [accountMarker, hd]
    have hme : accountMarker e = .ok (some ne) := by
      simp [accountMarker, he]
    rw [show n + 4 = n + 1 + 1 + 1 + 1 from rfl]
    simp only [get_account_full, hs1]
    rw [listingLoop_step server _ (n + 1 + 1 + 1) [a, b] [a, b] b (some nb) [c, d]
        rfl hmb (by rw [hs2]),
      listingLoop_step server _ (n + 1 + 1) _ [c, d] d (some nd) [e]
        rfl hmd (by rw [hs3]),
      listingLoop_step server _ (n + 1) _ [e] e (some ne) []
        rfl hme (by rw [hs4])]
    simp [listingLoop_empty, Except.map]

/-- Witness for C5 at concrete inputs: the four-page servers produce the
five concatenated entries with the first-page headers. -/
theorem full_listing_pagination_witness :
    get_container_full pageServer none none 4 =
      .ok ([("x-hdr", "first")],
        [⟨some "a", none⟩, ⟨some "b", none⟩, ⟨some "c", none⟩,
         ⟨some "d", none⟩, ⟨some "e", none⟩]) ∧
    get_container_full subdirServer (some "/") none 4 =
      .ok ([("h", "one")],
        [⟨some "a", none⟩, ⟨none, some "p/"⟩, ⟨some "c", none⟩,
         ⟨some "d", none⟩, ⟨none, some "q/"⟩]) ∧
    get_account_full pageServer none 4 =
      .ok ([("x-hdr", "first")],
        [⟨some "a", none⟩, ⟨some "b", none⟩, ⟨some "c", none⟩,
         ⟨some "d", none⟩, ⟨some "e", none⟩]) := by
  refine ⟨?_, ?_, ?_⟩
  · exact full_listing_pagination.1 pageServer _ _ _ _ _ _ _ _ _ "b" "d" "e"
      rfl rfl rfl rfl rfl rfl rfl 0
  · exact full_listing_pagination.2.1 subdirServer _ _ _ _ ⟨some "a", none⟩
      ⟨some "c", none⟩ ⟨some "d", none⟩ "/" "p/" "d" "q/"
      (by decide) rfl rfl rfl rfl rfl rfl 0
  · exact full_listing_pagination.2.2 pageServer _ _ _ _ _ _ _ _ _ "b" "d" "e"
      rfl rfl rfl rfl rfl rfl rfl 0

/-- C10: whatever pages a full listing fetches, the headers of the returned
pair are exactly those of the first page response; the headers of every
follow-up page request are discarded by the loop.  Holds for get_container
and get_account. -/
theorem full_listing_first_page_headers :
    (∀ server delimiter marker fuel hs es,
      get_container_full server delimiter marker fuel = .ok (hs, es) →
      hs = (server marker).1)
    ∧ (∀ server marker fuel hs es,
      get_account_full server marker fuel = .ok (hs, es) →
      hs = (server marker).1) := by
  constructor
  · intro server delimiter marker fuel hs es h
    simp only [get_container_full] at h
    cases hl : listingLoop server (containerMarker delimiter) fuel
        (server marker).2 (server marker).2 with
    | error err =>
      rw [hl] at h
      simp [Except.map] at h
    | ok es2 =>
      rw [hl] at h
      simp only [Except.map, Except.ok.injEq, Prod.mk.injEq] at h
      exact h.1.symm
  · intro server marker fuel hs es h
    simp only [get_account_full] at h
    cases hl : listingLoop server accountMarker fuel
        (server marker).2 (server marker).2 with
    | error err =>
      rw [hl] at h
      simp [Except.map] at h
    | ok es2 =>
      rw [hl] at h
      simp only [Except.map, Except.ok.injEq, Prod.mk.injEq] at h
      exact h.1.symm

/-- Witness for C10 at a concrete input: the first-page headers of the
four-page server survive into the result of the full container listing. -/
theorem full_listing_first_page_headers_witness :
    ([("x-hdr", "first")] : Headers) = (pageServer none).1 :=
  full_listing_first_page_headers.1 pageServer none none 4
    [("x-hdr", "first")]
    [⟨some "a", none⟩, ⟨some "b", none⟩, ⟨some "c", none⟩,
     ⟨some "d", none⟩, ⟨some "e", none⟩] rfl

/-! Claim C6: the temp-url signing formula. -/

/-- C6: with non-negative seconds and a relative expiry, generate_temp_url
returns the path extended with the signature over the newline-joined
upper-cased method, expiration now+seconds and path, and the expiration
query parameter; with seconds = -1 it fails with the validation error
before anything is computed. -/
theorem generate_temp_url_formula (H : String → String → String)
    (path : String) (seconds : Int) (key method : String) (now : Int) :
    (0 ≤ seconds →
      generate_temp_url H path seconds key method false now =
        .ok (path ++ "?temp_url_sig="
          ++ H key (method.toUpper ++ "\n" ++ toString (now + seconds)
            ++ "\n" ++ path)
          ++ "&temp_url_expires=" ++ toString (now + seconds)))
    ∧ generate_temp_url H path (-1) key method false now =
        .error .valueError := by
  constructor
  · intro h
    rw [generate_temp_url, if_neg (not_lt.mpr h)]
    rfl
  · rw [generate_temp_url, if_pos (by decide)]

/-- Witness for C6 at concrete inputs: signing path /v1/AUTH_test/c/o for
60 seconds at clock 1000 with a concatenating hash oracle signs the
upper-cased method, the expiration string 1060 and the path joined by
newlines, and appends the expiry parameter 1060. -/
theorem generate_temp_url_formula_witness :
    generate_temp_url (fun k b => k ++ "|" ++ b) "/v1/AUTH_test/c/o" 60
      "secret" "get" false 1000 =
      .ok ("/v1/AUTH_test/c/o" ++ "?temp_url_sig="
        ++ ("secret" ++ "|" ++ ("get".toUpper ++ "\n" ++ "1060" ++ "\n"
          ++ "/v1/AUTH_test/c/o"))
        ++ "&temp_url_expires=" ++ "1060") := by
  have ht : toString ((1000 : Int) + 60) = "1060" := by decide
  have h := (generate_temp_url_formula (fun k b => k ++ "|" ++ b)
      "/v1/AUTH_test/c/o" 60 "secret" "get" 1000).1 (by decide)
  rw [ht] at h
  exact h

/-! Claim C7: cached-session short-circuit in get_auth. -/

/-- Counterexample to C7: with auth_version 1 and a cached pair in
os_options, get_auth still consults the version-1 backend — the token it
returns is the backend token, not the cached one, and backendCalled is
true; only the storage url is taken from the cache, by the final override. -/
theorem get_auth_v1_ignores_cached_session :
    get_auth "1" "user" none
      ⟨some "http://cached", some "cachedtok", some "tn"⟩
      ("http://backend", "backendtok") (fun _ _ => ("b2url", "b2tok")) =
      .ok ⟨"http://cached", "backendtok", true⟩ ∧
    authBackendCalled (get_auth "1" "user" none
      ⟨some "http://cached", some "cachedtok", some "tn"⟩
      ("http://backend", "backendtok") (fun _ _ => ("b2url", "b2tok"))) =
      some true := ⟨rfl, rfl⟩

/-- C7 corrected: only auth version 2/2.0 short-circuits on a cached
(storage url, token) pair, returning it without consulting a backend; under
version 1/1.0 every successful get_auth has consulted the version-1
backend, whatever os_options holds. -/
theorem get_auth_cached_shortcircuit_v2_only :
    (∀ (user : String) (tn : Option String) (osu otok : String)
        (otn : Option String) (b1 : String × String)
        (b2 : OsOptions → String → String × String) (av : String),
      (av = "2.0" ∨ av = "2") → osu ≠ "" → otok ≠ "" →
      get_auth av user tn ⟨some osu, some otok, otn⟩ b1 b2 =
        .ok ⟨osu, otok, false⟩)
    ∧ (∀ (user : String) (tn : Option String) (os : OsOptions)
        (b1 : String × String)
        (b2 : OsOptions → String → String × String) (av : String)
        (r : AuthResult),
      (av = "1.0" ∨ av = "1") →
      get_auth av user tn os b1 b2 = .ok r → r.backendCalled = true) := by
  constructor
  · intro user tn osu otok otn b1 b2 av hav hosu hotok
    rcases hav with h | h <;> subst h <;>
      simp [get_auth, truthy_some_ne hosu, truthy_some_ne hotok]
  · intro user tn os b1 b2 av r hav h
    rcases hav with h1 | h1 <;> subst h1 <;>
      simp only [get_auth, applyOverride, if_pos, if_neg] at h <;>
      rw [if_pos (by decide)] at h <;>
      split at h <;> simp only [Except.ok.injEq] at h <;> rw [← h]

/-- Witness for C7: version 2.0 with a cached pair returns it with no
backend call; version 1.0 on the same configuration has backendCalled true
in its (concrete) successful result. -/
theorem get_auth_cached_shortcircuit_v2_only_witness :
    get_auth "2.0" "user" none
      ⟨some "http://cached", some "cachedtok", some "tn"⟩
      ("http://backend", "backendtok") (fun _ _ => ("b2url", "b2tok")) =
      .ok ⟨"http://cached", "cachedtok", false⟩ ∧
    (⟨"http://cached", "backendtok", true⟩ : AuthResult).backendCalled = true :=
  ⟨get_auth_cached_shortcircuit_v2_only.1 "user" none "http://cached"
      "cachedtok" (some "tn") ("http://backend", "backendtok")
      (fun _ _ => ("b2url", "b2tok")) "2.0" (Or.inl rfl) (by decide) (by decide),
   get_auth_cached_shortcircuit_v2_only.2 "user" none
      ⟨some "http://cached", some "cachedtok", some "tn"⟩
      ("http://backend", "backendtok") (fun _ _ => ("b2url", "b2tok")) "1.0"
      ⟨"http://cached", "backendtok", true⟩ (Or.inl rfl) rfl⟩

end Swift
